import Mathlib

/-!
Verification development for the nessie NES emulator.

Shallow embedding of the emulator core (PPU, Cartridge, NesBus, CPU) in
Lean 4.  Machine integers are modelled as `Nat` with explicit masks and
`% 2^w` where the Rust code wraps; Rust `panic!`, failed debug assertions
and overflow of unchecked `+=` / `-=` (which abort in debug builds) are
modelled by `Option`, with `none` standing for the aborted computation.
Arrays (`[u8; N]`) are modelled as functions `Nat → Nat` holding byte
values, updated pointwise.
-/

set_option maxRecDepth 8000

/-- Pointwise update of a function-modelled byte array. -/
def upd (f : Nat → Nat) (k v : Nat) : Nat → Nat :=
  fun i => if i = k then v else f i

/-- bitflags `set`: insert the flag bits when `b`, otherwise remove them
(`bits &= !flag` on `u8`, i.e. mask with the 8-bit complement). -/
def setFlag (p f : Nat) (b : Bool) : Nat :=
  if b then p ||| f else p &&& (255 ^^^ f)

namespace Nessie

/-! ## PPU (src/ppu.rs)

Flag bytes: `PpuStatus` has SPRITE_OVERFLOW = 32, SPRITE_ZERO_HIT = 64,
VBLANK = 128.  `PpuCtrl` has VRAM_INCREMENT = 4, NMI_ENABLE = 128 (all
eight bits are defined, so `from_bits_truncate` is `&&& 255`). -/

structure PPU where
  ctrl : Nat
  mask : Nat
  status : Nat
  oam_addr : Nat
  scroll_x : Nat
  scroll_y : Nat
  addr_hi : Nat
  addr_lo : Nat
  data_buffer : Nat
  write_toggle : Bool
  vram_addr : Nat
  cycle : Nat
  scanline : Nat
  frame : Nat
  vram : Nat → Nat
  palette_ram : Nat → Nat
  oam : Nat → Nat

/-- `PPU::new`, field for field. -/
def PPU.new : PPU where
  ctrl := 0
  mask := 0
  status := 128          -- PpuStatus::VBLANK
  oam_addr := 0
  scroll_x := 0
  scroll_y := 0
  addr_hi := 0
  addr_lo := 0
  data_buffer := 0
  write_toggle := false
  vram_addr := 0
  cycle := 0
  scanline := 241        -- start in VBlank period
  frame := 0
  vram := fun _ => 0
  palette_ram := fun _ => 0
  oam := fun _ => 0

/-- `PPU::read_vram`: mirror the address down to 16 KiB and dispatch. -/
def PPU.read_vram (p : PPU) (address : Nat) : Nat :=
  let address := address &&& 0x3FFF
  if address ≤ 0x1FFF then 0
  else if address ≤ 0x2FFF then p.vram ((address - 0x2000) &&& 0x7FF)
  else if address ≤ 0x3EFF then p.vram ((address - 0x3000) &&& 0x7FF)
  else p.palette_ram ((address - 0x3F00) &&& 0x1F)

/-- `PPU::write_vram`. -/
def PPU.write_vram (p : PPU) (address value : Nat) : PPU :=
  let address := address &&& 0x3FFF
  if address ≤ 0x1FFF then p
  else if address ≤ 0x2FFF then
    { p with vram := upd p.vram ((address - 0x2000) &&& 0x7FF) value }
  else if address ≤ 0x3EFF then
    { p with vram := upd p.vram ((address - 0x3000) &&& 0x7FF) value }
  else
    { p with palette_ram := upd p.palette_ram ((address - 0x3F00) &&& 0x1F) value }

/-- VRAM auto-increment step selected by the PPUCTRL VRAM_INCREMENT bit. -/
def PPU.vramStep (p : PPU) : Nat :=
  if p.ctrl &&& 4 ≠ 0 then 32 else 1

/-- `PPU::cpu_read`: CPU-side register read; returns the byte and the
mutated PPU.  `none` models the debug-build panic of the unchecked
`vram_addr += step` (u16 overflow). -/
def PPU.cpu_read (p : PPU) (address : Nat) : Option (Nat × PPU) :=
  if address = 0x2002 then
    -- PPUSTATUS: return current bits, clear VBlank, reset write toggle
    some (p.status, { p with status := p.status &&& 127, write_toggle := false })
  else if address = 0x2004 then
    some (p.oam p.oam_addr, p)
  else if address = 0x2007 then
    -- PPUDATA: buffered read
    let data := p.data_buffer
    let refill := p.read_vram p.vram_addr
    if 0x3F00 ≤ p.vram_addr then
      some (refill, { p with data_buffer := refill })
    else
      if p.vram_addr + p.vramStep ≤ 0xFFFF then
        some (data, { p with data_buffer := refill,
                             vram_addr := p.vram_addr + p.vramStep })
      else none
  else
    -- write-only registers and the unmatched arm read as zero
    some (0, p)

/-- `PPU::cpu_write`.  `none` models the debug-build panic of the
unchecked `vram_addr += step` after a PPUDATA write. -/
def PPU.cpu_write (p : PPU) (address value : Nat) : Option PPU :=
  if address = 0x2000 then
    some { p with ctrl := value &&& 255 }
  else if address = 0x2001 then
    some { p with mask := value &&& 255 }
  else if address = 0x2003 then
    some { p with oam_addr := value }
  else if address = 0x2004 then
    some { p with oam := upd p.oam p.oam_addr value,
                  oam_addr := (p.oam_addr + 1) % 256 }
  else if address = 0x2005 then
    some (if p.write_toggle
          then { p with scroll_y := value, write_toggle := false }
          else { p with scroll_x := value, write_toggle := true })
  else if address = 0x2006 then
    some (if p.write_toggle
          then { p with addr_lo := value,
                        vram_addr := (p.addr_hi <<< 8) ||| value,
                        write_toggle := false }
          else { p with addr_hi := value, write_toggle := true })
  else if address = 0x2007 then
    let p1 := p.write_vram p.vram_addr value
    if p.vram_addr + p.vramStep ≤ 0xFFFF then
      some { p1 with vram_addr := p.vram_addr + p.vramStep }
    else none
  else
    -- 0x2002 (read-only) and the unmatched arm: ignored
    some p

/-- Flag updates at the end of `PPU::clock` once a new scanline begins:
set VBlank on entry to scanline 241, remove only the VBlank bit on entry
to scanline 261. -/
def PPU.clockFlags (p : PPU) : PPU :=
  if p.scanline = 241 then { p with status := p.status ||| 128 }
  else if p.scanline = 261 then { p with status := p.status &&& 127 }
  else p

/-- `PPU::clock`: advance one dot.  The increments of `cycle`, `scanline`
and `frame` are unchecked (`+=`), so `none` models the debug-build panic
at the top of each counter. -/
def PPU.clock (p : PPU) : Option PPU :=
  if p.cycle = 0xFFFF then none else
  let c := p.cycle + 1
  if 341 ≤ c then
    if p.scanline = 0xFFFF then none else
    let s := p.scanline + 1
    if 262 ≤ s then
      if p.frame = 0xFFFFFFFFFFFFFFFF then none else
      some (PPU.clockFlags { p with cycle := 0, scanline := 0, frame := p.frame + 1 })
    else
      some (PPU.clockFlags { p with cycle := 0, scanline := s })
  else
    some { p with cycle := c }

/-! ## Cartridge (src/cartridge.rs)

`cartridge_ram` is the 8 KiB `[u8; 0x2000]` array, `prg_rom` the PRG-ROM
byte vector.  Every `panic!` arm is `none`. -/

structure Cartridge where
  cartridge_ram : Nat → Nat
  prg_rom : List Nat

/-- `<Cartridge as Bus>::read`.  `none` models the panic on unmapped
addresses and the out-of-bounds `Vec` index panic. -/
def Cartridge.read (c : Cartridge) (address : Nat) : Option Nat :=
  if 0x6000 ≤ address ∧ address ≤ 0x7FFF then
    some (c.cartridge_ram (address - 0x6000))
  else if 0x8000 ≤ address ∧ address ≤ 0xFFFF then
    let a := address - 0x8000
    let a := if c.prg_rom.length = 0x4000 ∧ 0x4000 ≤ a then a % 0x4000 else a
    c.prg_rom.get? a
  else none

/-- `<Cartridge as Bus>::write`.  Writes to `$8000-$FFFF` hit the
unconditional `panic!("Can not write to cartridge rom address")` arm, and
unmapped addresses panic as well; both are `none`. -/
def Cartridge.write (c : Cartridge) (address value : Nat) : Option Cartridge :=
  if 0x6000 ≤ address ∧ address ≤ 0x7FFF then
    some { c with cartridge_ram := upd c.cartridge_ram (address - 0x6000) value }
  else none

/-! ## NesBus (src/nes.rs)

`<NesBus as Bus>::read` takes `&self` but mutates the PPU through an
unsafe pointer cast, so it is modelled as returning the byte together
with the successor bus state. -/

structure NesBus where
  cpu_vram : Nat → Nat
  cartridge : Cartridge
  ppu : PPU

/-- `NesBus::new`. -/
def NesBus.new (cartridge : Cartridge) : NesBus where
  cpu_vram := fun _ => 0
  cartridge := cartridge
  ppu := PPU.new

/-- `<NesBus as Bus>::read`: RAM mirrored with `&&& 0x7FF`, the PPU
window mirrored every 8 bytes (side-effecting through `PPU::cpu_read`),
the cartridge above `$6000`, and a warn-and-zero default. -/
def NesBus.read (b : NesBus) (address : Nat) : Option (Nat × NesBus) :=
  if address ≤ 0x1FFF then
    some (b.cpu_vram (address &&& 0x7FF), b)
  else if address ≤ 0x3FFF then
    (b.ppu.cpu_read (0x2000 + (address &&& 0x0007))).map
      (fun r => (r.1, { b with ppu := r.2 }))
  else if 0x6000 ≤ address ∧ address ≤ 0xFFFF then
    (b.cartridge.read address).map (fun v => (v, b))
  else
    some (0, b)

/-- `<NesBus as Bus>::write`. -/
def NesBus.write (b : NesBus) (address value : Nat) : Option NesBus :=
  if address ≤ 0x1FFF then
    some { b with cpu_vram := upd b.cpu_vram (address &&& 0x7FF) value }
  else if address ≤ 0x3FFF then
    (b.ppu.cpu_write (0x2000 + (address &&& 0x0007)) value).map
      (fun q => { b with ppu := q })
  else if 0x6000 ≤ address ∧ address ≤ 0xFFFF then
    (b.cartridge.write address value).map (fun c => { b with cartridge := c })
  else
    some b

/-! ## CPU (src/cpu.rs)

`StatusFlags` bits: C = 1, Z = 2, I = 4, D = 8, B = 16, X = 32, O = 64,
N = 128.  The register file of `struct CPU`; the `Machine` below couples
it with the flat-RAM `Bus` implementation for `[u8; 65536]`
(src/bus.rs), which the in-repo CPU programs run against. -/

structure CPU where
  accumulator : Nat
  x_register : Nat
  y_register : Nat
  program_counter : Nat
  remaining_cycles : Nat
  status : Nat
  total_cycles : Nat
  stack_pointer : Nat

/-- `enum Address`: a resolved operand location. -/
inductive Address where
  | implied : Address
  | relative (v : Nat) : Address
  | absolute (a : Nat) : Address
deriving DecidableEq

/-- `enum AddressingMode`. -/
inductive AddressingMode where
  | absolute | absoluteX | absoluteY | immediate | implied
  | indirect | indirectX | indirectY | relative
  | zeroPage | zeroPageX | zeroPageY
deriving DecidableEq

/-- `fn s8_to_u16`: sign-extend a byte to 16 bits. -/
def s8_to_u16 (value : Nat) : Nat :=
  if value &&& 0x80 ≠ 0 then value ||| 0xFF00 else value

/-- `u8::wrapping_sub` on byte values. -/
def wsub8 (a b : Nat) : Nat := (a + 256 - b % 256) % 256

/-- The CPU coupled with the flat 64 KiB RAM bus (`impl Bus for [u8; 65536]`). -/
structure Machine extends CPU where
  ram : Nat → Nat

namespace Machine

/-- `bus.read` on the flat RAM bus. -/
def busRead (m : Machine) (address : Nat) : Nat := m.ram address

/-- `bus.write` on the flat RAM bus. -/
def busWrite (m : Machine) (address value : Nat) : Machine :=
  { m with ram := upd m.ram address value }

/-- `Bus::read16`: little-endian pair; the `address + 1` is an unchecked
u16 addition, so `none` at `address = 0xFFFF`. -/
def read16 (m : Machine) (address : Nat) : Option Nat :=
  if address = 0xFFFF then none
  else some ((m.ram (address + 1)) <<< 8 ||| m.ram address)

/-- bitflags `set` on the status register. -/
def setFlagM (m : Machine) (f : Nat) (b : Bool) : Machine :=
  { m with status := setFlag m.status f b }

/-- `CPU::set_zero_or_neg_flags`. -/
def set_zero_or_neg_flags (m : Machine) (value : Nat) : Machine :=
  (m.setFlagM 2 (value = 0)).setFlagM 128 (value &&& 128 ≠ 0)

/-- `CPU::push_stack`. -/
def push_stack (m : Machine) (data : Nat) : Machine :=
  let m1 := m.busWrite (0x100 + m.stack_pointer) data
  { m1 with stack_pointer := wsub8 m.stack_pointer 1 }

/-- `CPU::push_stack_16`: high byte first. -/
def push_stack_16 (m : Machine) (data : Nat) : Machine :=
  (m.push_stack ((data >>> 8) % 256)).push_stack (data % 256)

/-- `CPU::pop_stack`. -/
def pop_stack (m : Machine) : Machine × Nat :=
  let sp := (m.stack_pointer + 1) % 256
  ({ m with stack_pointer := sp }, m.ram (0x100 + sp))

/-- `CPU::pop_stack_16`: low byte first. -/
def pop_stack_16 (m : Machine) : Machine × Nat :=
  let r1 := m.pop_stack
  let r2 := r1.1.pop_stack
  (r2.1, (r2.2 <<< 8) ||| r1.2)

/-- `CPU::adc`.  A failed `debug_assert_matches!` (non-Absolute operand)
is a debug-build panic, hence `none`. -/
def adc (m : Machine) (address : Address) : Option Machine :=
  match address with
  | .absolute a =>
    let value := m.ram a
    let carry := if m.status &&& 1 ≠ 0 then 1 else 0
    let result := m.accumulator + value + carry
    let result_u8 := result % 256
    let m1 := m.setFlagM 1 (255 < result)
    let m2 := m1.setFlagM 64
      (0 < ((m.accumulator ^^^ value) ^^^ 255) &&& (m.accumulator ^^^ result_u8) &&& 128)
    let m3 := m2.set_zero_or_neg_flags result_u8
    some { m3 with accumulator := result_u8 }
  | _ => none

/-- `CPU::and`. -/
def and (m : Machine) (address : Address) : Option Machine :=
  match address with
  | .absolute a =>
    let acc := m.accumulator &&& m.ram a
    some ({ m with accumulator := acc }.set_zero_or_neg_flags acc)
  | _ => none

/-- Shared body of the `inner` closure in `CPU::asl`. -/
def asl_inner (m : Machine) (value : Nat) : Machine × Nat :=
  let m1 := m.setFlagM 1 (value >>> 7 = 1)
  let value := (value <<< 1) % 256
  let m2 := m1.setFlagM 2 (value = 0)
  let m3 := m2.setFlagM 128 (value &&& 128 ≠ 0)
  (m3, value)

/-- `CPU::asl`; the `_ => panic!` arm (Relative operand) is `none`. -/
def asl (m : Machine) (address : Address) : Option Machine :=
  match address with
  | .implied =>
    let r := m.asl_inner m.accumulator
    some { r.1 with accumulator := r.2 }
  | .absolute a =>
    let r := m.asl_inner (m.ram a)
    some (r.1.busWrite a r.2)
  | _ => none

/-- `CPU::branch`: shared body of the conditional branches. -/
def branch (m : Machine) (address : Address) (cond : Bool) : Option Machine :=
  match address with
  | .relative v =>
    let address := (s8_to_u16 v + m.program_counter) % 65536
    if cond then
      let m1 :=
        if address &&& 0xFF00 ≠ m.program_counter &&& 0xFF00
        then { m with remaining_cycles := m.remaining_cycles + 2 }
        else { m with remaining_cycles := m.remaining_cycles + 1 }
      some { m1 with program_counter := address }
    else some m
  | _ => none

/-- `CPU::bit`. -/
def bit (m : Machine) (address : Address) : Option Machine :=
  match address with
  | .absolute a =>
    let value := m.ram a
    let m1 := m.setFlagM 2 (m.accumulator &&& value = 0)
    let m2 := m1.setFlagM 64 ((value &&& 255) &&& 64 ≠ 0)
    some (m2.setFlagM 128 ((value &&& 255) &&& 128 ≠ 0))
  | _ => none

/-- `CPU::brk`: sets the B flag (stack manipulation is a TODO in the
source). -/
def brk (m : Machine) (address : Address) : Option Machine :=
  match address with
  | .implied => some { m with status := m.status ||| 16 }
  | _ => none

/-- `CPU::compare`: shared body of CMP/CPX/CPY. -/
def compare (m : Machine) (address : Address) (register_value : Nat) : Option Machine :=
  match address with
  | .absolute a =>
    let value := m.ram a
    let m1 := m.setFlagM 1 (value ≤ register_value)
    some (m1.set_zero_or_neg_flags (wsub8 register_value value))
  | _ => none

/-- `CPU::dec`. -/
def dec (m : Machine) (address : Address) : Option Machine :=
  match address with
  | .absolute a =>
    let value := wsub8 (m.ram a) 1
    some ((m.set_zero_or_neg_flags value).busWrite a value)
  | _ => none

/-- `CPU::eor`. -/
def eor (m : Machine) (address : Address) : Option Machine :=
  match address with
  | .absolute a =>
    let acc := m.accumulator ^^^ m.ram a
    some ({ m with accumulator := acc }.set_zero_or_neg_flags acc)
  | _ => none

/-- `CPU::inc`. -/
def inc (m : Machine) (address : Address) : Option Machine :=
  match address with
  | .absolute a =>
    let value := (m.ram a + 1) % 256
    some ((m.set_zero_or_neg_flags value).busWrite a value)
  | _ => none

/-- `CPU::jmp`. -/
def jmp (m : Machine) (address : Address) : Option Machine :=
  match address with
  | .absolute a => some { m with program_counter := a }
  | _ => none

/-- `CPU::jsr`: pushes `PC - 1`, an unchecked u16 subtraction, so `none`
when the program counter is zero. -/
def jsr (m : Machine) (address : Address) : Option Machine :=
  match address with
  | .absolute a =>
    if m.program_counter = 0 then none
    else some { m.push_stack_16 (m.program_counter - 1) with program_counter := a }
  | _ => none

/-- `CPU::lda`. -/
def lda (m : Machine) (address : Address) : Option Machine :=
  match address with
  | .absolute a =>
    some ({ m with accumulator := m.ram a }.set_zero_or_neg_flags (m.ram a))
  | _ => none

/-- `CPU::ldx`. -/
def ldx (m : Machine) (address : Address) : Option Machine :=
  match address with
  | .absolute a =>
    some ({ m with x_register := m.ram a }.set_zero_or_neg_flags (m.ram a))
  | _ => none

/-- `CPU::ldy`. -/
def ldy (m : Machine) (address : Address) : Option Machine :=
  match address with
  | .absolute a =>
    some ({ m with y_register := m.ram a }.set_zero_or_neg_flags (m.ram a))
  | _ => none

/-- Shared body of the `inner` closure in `CPU::lsr`. -/
def lsr_inner (m : Machine) (value : Nat) : Machine × Nat :=
  let m1 := m.setFlagM 1 (value &&& 1 = 1)
  let shifted := value >>> 1
  let m2 := m1.setFlagM 2 (shifted = 0)
  let m3 := m2.setFlagM 128 false
  (m3, shifted)

/-- `CPU::lsr`. -/
def lsr (m : Machine) (address : Address) : Option Machine :=
  match address with
  | .implied =>
    let r := m.lsr_inner m.accumulator
    some { r.1 with accumulator := r.2 }
  | .absolute a =>
    let r := m.lsr_inner (m.ram a)
    some (r.1.busWrite a r.2)
  | _ => none

/-- `CPU::ora`. -/
def ora (m : Machine) (address : Address) : Option Machine :=
  match address with
  | .absolute a =>
    let acc := m.accumulator ||| m.ram a
    some ({ m with accumulator := acc }.set_zero_or_neg_flags acc)
  | _ => none

/-- `CPU::php`: pushes `P | B`. -/
def php (m : Machine) (address : Address) : Option Machine :=
  match address with
  | .implied => some (m.push_stack (m.status ||| 16))
  | _ => none

/-- `CPU::pla`. -/
def pla (m : Machine) (address : Address) : Option Machine :=
  match address with
  | .implied =>
    let r := m.pop_stack
    some ({ r.1 with accumulator := r.2 }.set_zero_or_neg_flags r.2)
  | _ => none

/-- `CPU::plp`: restores P from the stack, preserving the callers B and
X bits. -/
def plp (m : Machine) (address : Address) : Option Machine :=
  match address with
  | .implied =>
    let old_status := m.status
    let r := m.pop_stack
    let new_status := r.2 &&& 255
    let new_status := setFlag new_status 16 (old_status &&& 16 ≠ 0)
    let new_status := setFlag new_status 32 (old_status &&& 32 ≠ 0)
    some { r.1 with status := new_status }
  | _ => none

/-- Shared body of the `inner` closure in `CPU::rol`. -/
def rol_inner (m : Machine) (value : Nat) : Machine × Nat :=
  let carry := if m.status &&& 1 ≠ 0 then 1 else 0
  let m1 := m.setFlagM 1 (value >>> 7 = 1)
  let value := ((value <<< 1) % 256) ||| carry
  let m2 := m1.setFlagM 2 (value = 0)
  let m3 := m2.setFlagM 128 (value &&& 128 ≠ 0)
  (m3, value)

/-- `CPU::rol`. -/
def rol (m : Machine) (address : Address) : Option Machine :=
  match address with
  | .implied =>
    let r := m.rol_inner m.accumulator
    some { r.1 with accumulator := r.2 }
  | .absolute a =>
    let r := m.rol_inner (m.ram a)
    some (r.1.busWrite a r.2)
  | _ => none

/-- Shared body of the `inner` closure in `CPU::ror`. -/
def ror_inner (m : Machine) (value : Nat) : Machine × Nat :=
  let carry := if m.status &&& 1 ≠ 0 then 1 else 0
  let m1 := m.setFlagM 1 (value &&& 1 = 1)
  let value := (value >>> 1) ||| (carry <<< 7)
  let m2 := m1.setFlagM 2 (value = 0)
  let m3 := m2.setFlagM 128 (value &&& 128 ≠ 0)
  (m3, value)

/-- `CPU::ror`. -/
def ror (m : Machine) (address : Address) : Option Machine :=
  match address with
  | .implied =>
    let r := m.ror_inner m.accumulator
    some { r.1 with accumulator := r.2 }
  | .absolute a =>
    let r := m.ror_inner (m.ram a)
    some (r.1.busWrite a r.2)
  | _ => none

/-- `CPU::rti`: PLP then pop the return address. -/
def rti (m : Machine) (address : Address) : Option Machine :=
  (m.plp address).map (fun m1 =>
    let r := m1.pop_stack_16
    { r.1 with program_counter := r.2 })

/-- `CPU::rts`: the popped address plus one is an unchecked u16 addition,
`none` at `0xFFFF`. -/
def rts (m : Machine) (address : Address) : Option Machine :=
  match address with
  | .implied =>
    let r := m.pop_stack_16
    if r.2 = 0xFFFF then none
    else some { r.1 with program_counter := r.2 + 1 }
  | _ => none

/-- `CPU::sax`. -/
def sax (m : Machine) (address : Address) : Option Machine :=
  match address with
  | .absolute a => some (m.busWrite a (m.accumulator &&& m.x_register))
  | _ => none

/-- `CPU::sbc`. -/
def sbc (m : Machine) (address : Address) : Option Machine :=
  match address with
  | .absolute a =>
    let value := m.ram a
    let carry := if m.status &&& 1 ≠ 0 then 1 else 0
    let result := m.accumulator + (value ^^^ 255) + carry
    let result_u8 := result % 256
    let m1 := m.setFlagM 1 (255 < result)
    let m2 := m1.setFlagM 2 (result_u8 = 0)
    let m3 := m2.setFlagM 64
      (0 < (m.accumulator ^^^ value) &&& (m.accumulator ^^^ result_u8) &&& 128)
    let m4 := m3.setFlagM 128 (0 < result_u8 &&& 128)
    some { m4 with accumulator := result_u8 }
  | _ => none

/-- `CPU::sta`. -/
def sta (m : Machine) (address : Address) : Option Machine :=
  match address with
  | .absolute a => some (m.busWrite a m.accumulator)
  | _ => none

/-- `CPU::stx`. -/
def stx (m : Machine) (address : Address) : Option Machine :=
  match address with
  | .absolute a => some (m.busWrite a m.x_register)
  | _ => none

/-- `CPU::sty`. -/
def sty (m : Machine) (address : Address) : Option Machine :=
  match address with
  | .absolute a => some (m.busWrite a m.y_register)
  | _ => none

/-- `CPU::bcc`. -/
def bcc (m : Machine) (address : Address) : Option Machine :=
  m.branch address (m.status &&& 1 = 0)

/-- `CPU::bcs`. -/
def bcs (m : Machine) (address : Address) : Option Machine :=
  m.branch address (m.status &&& 1 ≠ 0)

/-- `CPU::beq`. -/
def beq (m : Machine) (address : Address) : Option Machine :=
  m.branch address (m.status &&& 2 ≠ 0)

/-- `CPU::bne`. -/
def bne (m : Machine) (address : Address) : Option Machine :=
  m.branch address (m.status &&& 2 = 0)

/-- `CPU::bmi`. -/
def bmi (m : Machine) (address : Address) : Option Machine :=
  m.branch address (m.status &&& 128 ≠ 0)

/-- `CPU::bpl`. -/
def bpl (m : Machine) (address : Address) : Option Machine :=
  m.branch address (m.status &&& 128 = 0)

/-- `CPU::bvs`. -/
def bvs (m : Machine) (address : Address) : Option Machine :=
  m.branch address (m.status &&& 64 ≠ 0)

/-- `CPU::bvc`. -/
def bvc (m : Machine) (address : Address) : Option Machine :=
  m.branch address (m.status &&& 64 = 0)

/-- `CPU::clc`. -/
def clc (m : Machine) (address : Address) : Option Machine :=
  match address with
  | .implied => some { m with status := m.status &&& (255 ^^^ 1) }
  | _ => none

/-- `CPU::cld`. -/
def cld (m : Machine) (address : Address) : Option Machine :=
  match address with
  | .implied => some { m with status := m.status &&& (255 ^^^ 8) }
  | _ => none

/-- `CPU::cli`. -/
def cli (m : Machine) (address : Address) : Option Machine :=
  match address with
  | .implied => some { m with status := m.status &&& (255 ^^^ 4) }
  | _ => none

/-- `CPU::clv`. -/
def clv (m : Machine) (address : Address) : Option Machine :=
  match address with
  | .implied => some { m with status := m.status &&& (255 ^^^ 64) }
  | _ => none

/-- `CPU::sec`. -/
def sec (m : Machine) (address : Address) : Option Machine :=
  match address with
  | .implied => some { m with status := m.status ||| 1 }
  | _ => none

/-- `CPU::sed`. -/
def sed (m : Machine) (address : Address) : Option Machine :=
  match address with
  | .implied => some { m with status := m.status ||| 8 }
  | _ => none

/-- `CPU::sei`. -/
def sei (m : Machine) (address : Address) : Option Machine :=
  match address with
  | .implied => some { m with status := m.status ||| 4 }
  | _ => none

/-- `CPU::cmp`. -/
def cmp (m : Machine) (address : Address) : Option Machine :=
  m.compare address m.accumulator

/-- `CPU::cpx`. -/
def cpx (m : Machine) (address : Address) : Option Machine :=
  m.compare address m.x_register

/-- `CPU::cpy`. -/
def cpy (m : Machine) (address : Address) : Option Machine :=
  m.compare address m.y_register

/-- `CPU::dex`. -/
def dex (m : Machine) (address : Address) : Option Machine :=
  match address with
  | .implied =>
    let v := wsub8 m.x_register 1
    some ({ m with x_register := v }.set_zero_or_neg_flags v)
  | _ => none

/-- `CPU::dey`. -/
def dey (m : Machine) (address : Address) : Option Machine :=
  match address with
  | .implied =>
    let v := wsub8 m.y_register 1
    some ({ m with y_register := v }.set_zero_or_neg_flags v)
  | _ => none

/-- `CPU::inx`. -/
def inx (m : Machine) (address : Address) : Option Machine :=
  match address with
  | .implied =>
    let v := (m.x_register + 1) % 256
    some ({ m with x_register := v }.set_zero_or_neg_flags v)
  | _ => none

/-- `CPU::iny`. -/
def iny (m : Machine) (address : Address) : Option Machine :=
  match address with
  | .implied =>
    let v := (m.y_register + 1) % 256
    some ({ m with y_register := v }.set_zero_or_neg_flags v)
  | _ => none

/-- `CPU::nop`. -/
def nop (m : Machine) (_address : Address) : Option Machine := some m

/-- `CPU::pha`. -/
def pha (m : Machine) (address : Address) : Option Machine :=
  match address with
  | .implied => some (m.push_stack m.accumulator)
  | _ => none

/-- `CPU::tax`. -/
def tax (m : Machine) (address : Address) : Option Machine :=
  match address with
  | .implied =>
    some ({ m with x_register := m.accumulator }.set_zero_or_neg_flags m.accumulator)
  | _ => none

/-- `CPU::tay`. -/
def tay (m : Machine) (address : Address) : Option Machine :=
  match address with
  | .implied =>
    some ({ m with y_register := m.accumulator }.set_zero_or_neg_flags m.accumulator)
  | _ => none

/-- `CPU::tsx`. -/
def tsx (m : Machine) (address : Address) : Option Machine :=
  match address with
  | .implied =>
    some ({ m with x_register := m.stack_pointer }.set_zero_or_neg_flags m.stack_pointer)
  | _ => none

/-- `CPU::txa`. -/
def txa (m : Machine) (address : Address) : Option Machine :=
  match address with
  | .implied =>
    some ({ m with accumulator := m.x_register }.set_zero_or_neg_flags m.x_register)
  | _ => none

/-- `CPU::txs`. -/
def txs (m : Machine) (address : Address) : Option Machine :=
  match address with
  | .implied => some { m with stack_pointer := m.x_register }
  | _ => none

/-- `CPU::tya`. -/
def tya (m : Machine) (address : Address) : Option Machine :=
  match address with
  | .implied =>
    some ({ m with accumulator := m.y_register }.set_zero_or_neg_flags m.y_register)
  | _ => none

/-- `CPU::alr` = AND then LSR on the accumulator. -/
def alr (m : Machine) (address : Address) : Option Machine :=
  (m.and address).bind (fun m1 => m1.lsr .implied)

/-- `CPU::anc` = AND then copy bit 7 of A into C. -/
def anc (m : Machine) (address : Address) : Option Machine :=
  (m.and address).map (fun m1 => m1.setFlagM 1 (m1.accumulator >>> 7 = 1))

/-- `CPU::dcp` = DEC then CMP. -/
def dcp (m : Machine) (address : Address) : Option Machine :=
  (m.dec address).bind (fun m1 => m1.cmp address)

/-- `CPU::isc` = INC then SBC. -/
def isc (m : Machine) (address : Address) : Option Machine :=
  (m.inc address).bind (fun m1 => m1.sbc address)

/-- `CPU::lax` = LDA then LDX. -/
def lax (m : Machine) (address : Address) : Option Machine :=
  (m.lda address).bind (fun m1 => m1.ldx address)

/-- `CPU::rla` = ROL then AND. -/
def rla (m : Machine) (address : Address) : Option Machine :=
  (m.rol address).bind (fun m1 => m1.and address)

/-- `CPU::rra` = ROR then ADC. -/
def rra (m : Machine) (address : Address) : Option Machine :=
  (m.ror address).bind (fun m1 => m1.adc address)

/-- `CPU::slo` = ASL then ORA. -/
def slo (m : Machine) (address : Address) : Option Machine :=
  (m.asl address).bind (fun m1 => m1.ora address)

/-- `CPU::sre` = LSR then EOR. -/
def sre (m : Machine) (address : Address) : Option Machine :=
  (m.lsr address).bind (fun m1 => m1.eor address)

end Machine

/-- The dispatchable operations of the opcode table.  `unimpl` covers
the `todo!` handlers (`ahx`, `arr`, `axs`, `las`, `shx`, `shy`, `tas`,
`xaa`), which abort on execution. -/
inductive Instr where
  | adc | alr | anc | and | asl
  | bcc | bcs | beq | bit | bmi | bne | bpl | brk | bvc | bvs
  | clc | cld | cli | clv | cmp | cpx | cpy
  | dcp | dec | dex | dey | eor | inc | inx | iny | isc
  | jmp | jsr | lax | lda | ldx | ldy | lsr | nop | ora
  | pha | php | pla | plp | rla | rol | ror | rra | rti | rts
  | sax | sbc | sec | sed | sei | slo | sre | sta | stx | sty
  | tax | tay | tsx | txa | txs | tya
  | unimpl
deriving DecidableEq

/-- `op.execute(self, address)`: dispatch an operation to its handler. -/
def Instr.run : Instr → Machine → Address → Option Machine
  | .adc, m, a => m.adc a
  | .alr, m, a => m.alr a
  | .anc, m, a => m.anc a
  | .and, m, a => m.and a
  | .asl, m, a => m.asl a
  | .bcc, m, a => m.bcc a
  | .bcs, m, a => m.bcs a
  | .beq, m, a => m.beq a
  | .bit, m, a => m.bit a
  | .bmi, m, a => m.bmi a
  | .bne, m, a => m.bne a
  | .bpl, m, a => m.bpl a
  | .brk, m, a => m.brk a
  | .bvc, m, a => m.bvc a
  | .bvs, m, a => m.bvs a
  | .clc, m, a => m.clc a
  | .cld, m, a => m.cld a
  | .cli, m, a => m.cli a
  | .clv, m, a => m.clv a
  | .cmp, m, a => m.cmp a
  | .cpx, m, a => m.cpx a
  | .cpy, m, a => m.cpy a
  | .dcp, m, a => m.dcp a
  | .dec, m, a => m.dec a
  | .dex, m, a => m.dex a
  | .dey, m, a => m.dey a
  | .eor, m, a => m.eor a
  | .inc, m, a => m.inc a
  | .inx, m, a => m.inx a
  | .iny, m, a => m.iny a
  | .isc, m, a => m.isc a
  | .jmp, m, a => m.jmp a
  | .jsr, m, a => m.jsr a
  | .lax, m, a => m.lax a
  | .lda, m, a => m.lda a
  | .ldx, m, a => m.ldx a
  | .ldy, m, a => m.ldy a
  | .lsr, m, a => m.lsr a
  | .nop, m, a => m.nop a
  | .ora, m, a => m.ora a
  | .pha, m, a => m.pha a
  | .php, m, a => m.php a
  | .pla, m, a => m.pla a
  | .plp, m, a => m.plp a
  | .rla, m, a => m.rla a
  | .rol, m, a => m.rol a
  | .ror, m, a => m.ror a
  | .rra, m, a => m.rra a
  | .rti, m, a => m.rti a
  | .rts, m, a => m.rts a
  | .sax, m, a => m.sax a
  | .sbc, m, a => m.sbc a
  | .sec, m, a => m.sec a
  | .sed, m, a => m.sed a
  | .sei, m, a => m.sei a
  | .slo, m, a => m.slo a
  | .sre, m, a => m.sre a
  | .sta, m, a => m.sta a
  | .stx, m, a => m.stx a
  | .sty, m, a => m.sty a
  | .tax, m, a => m.tax a
  | .tay, m, a => m.tay a
  | .tsx, m, a => m.tsx a
  | .txa, m, a => m.txa a
  | .txs, m, a => m.txs a
  | .tya, m, a => m.tya a
  | .unimpl, _, _ => none

/-- One entry of the 256-slot opcode table: mnemonic, addressing mode,
byte length, base cycle cost, handler. -/
structure OpEntry where
  name : String
  mode : AddressingMode
  len : Nat
  cycles : Nat
  instr : Instr

/-- Modelled from the spec: the opcode table itself (`src/opcodes.rs`,
declared by `lib.rs` as `mod opcodes`) is not present under src/.  Per
the spec, a 256-entry table indexed by the opcode byte yields mnemonic,
addressing mode, byte length, base cycle cost and handler, following the
documented 6502 encoding.  Entries are given for the opcodes exercised
by the embedded programs; every other slot is a placeholder whose
execution fails loudly, as the spec requires for unsupported opcodes. -/
def OPCODE_TABLE : Nat → OpEntry
  | 0x00 => ⟨"BRK", .implied, 1, 7, .brk⟩
  | 0x65 => ⟨"ADC", .zeroPage, 2, 3, .adc⟩
  | 0x85 => ⟨"STA", .zeroPage, 2, 3, .sta⟩
  | 0xA4 => ⟨"LDY", .zeroPage, 2, 3, .ldy⟩
  | 0xA9 => ⟨"LDA", .immediate, 2, 2, .lda⟩
  | 0xC8 => ⟨"INY", .implied, 1, 2, .iny⟩
  | 0xE6 => ⟨"INC", .zeroPage, 2, 5, .inc⟩
  | _ => ⟨"???", .implied, 1, 2, .unimpl⟩

namespace Machine

/-- `CPU::zero_page`. -/
def zero_page (m : Machine) (offset : Nat) : Address :=
  .absolute ((m.ram m.program_counter + offset) % 256)

/-- `CPU::absolute`. -/
def absolute (m : Machine) (offset : Nat) : Option Address :=
  (m.read16 m.program_counter).map (fun a => .absolute ((a + offset) % 65536))

/-- `CPU::relative`. -/
def relative (m : Machine) : Address :=
  .relative (m.ram m.program_counter)

/-- `CPU::indirect`, with the 6502 page-wrap quirk; the bare
`indirect_address + 1` inside the masked expression is an unchecked u16
addition, hence `none` at `0xFFFF`. -/
def indirect (m : Machine) : Option Address :=
  (m.read16 m.program_counter).bind (fun indirect_address =>
    if indirect_address = 0xFFFF then none else
    let page := indirect_address &&& 0xFF00
    let address_hi := (m.ram (page ||| ((indirect_address + 1) &&& 0xFF))) <<< 8
    let address_lo := m.ram indirect_address
    some (.absolute (address_hi ||| address_lo)))

/-- `CPU::indirect_x`. -/
def indirect_x (m : Machine) : Address :=
  let indirect_address := (m.ram m.program_counter + m.x_register) % 256
  let indirect_address_plus_one := (indirect_address + 1) % 256
  let address_hi := (m.ram indirect_address_plus_one) <<< 8
  let address_lo := m.ram indirect_address
  .absolute (address_hi ||| address_lo)

/-- `CPU::indirect_y`. -/
def indirect_y (m : Machine) : Address :=
  let indirect_address := m.ram m.program_counter
  let indirect_address_plus_one := (indirect_address + 1) % 256
  let address_hi := (m.ram indirect_address_plus_one) <<< 8
  let address_lo := m.ram indirect_address
  .absolute ((((address_hi ||| address_lo)) + m.y_register) % 65536)

/-- `CPU::resolve_address`. -/
def resolve_address (m : Machine) (addressing : AddressingMode) : Option Address :=
  match addressing with
  | .absolute => m.absolute 0
  | .absoluteX => m.absolute m.x_register
  | .absoluteY => m.absolute m.y_register
  | .immediate => some (.absolute m.program_counter)
  | .implied => some .implied
  | .indirect => m.indirect
  | .indirectX => some m.indirect_x
  | .indirectY => some m.indirect_y
  | .relative => some m.relative
  | .zeroPage => some (m.zero_page 0)
  | .zeroPageX => some (m.zero_page m.x_register)
  | .zeroPageY => some (m.zero_page m.y_register)

/-- Tail of `CPU::cycle`: `total_cycles += 1` (unchecked u64) and
`remaining_cycles -= 1` (unchecked u8, aborts when already zero). -/
def finishCycle (m : Machine) : Option Machine :=
  if m.total_cycles = 0xFFFFFFFFFFFFFFFF then none else
  if m.remaining_cycles = 0 then none else
  some { m with total_cycles := m.total_cycles + 1,
                remaining_cycles := m.remaining_cycles - 1 }

/-- `CPU::cycle` for a given opcode table: when no cycles remain, fetch,
resolve, advance the program counter past the operand, execute, and add
the base cycle cost; the unchecked u16/u8 additions are `none` on
overflow. -/
def cycle (table : Nat → OpEntry) (m : Machine) : Option Machine :=
  if m.remaining_cycles = 0 then
    let opcode := m.ram m.program_counter
    if m.program_counter = 0xFFFF then none else
    let m1 := { m with program_counter := m.program_counter + 1 }
    let op := table opcode
    (m1.resolve_address op.mode).bind (fun address =>
      if op.len = 0 then none else
      if 0xFFFF < m1.program_counter + (op.len - 1) then none else
      let m2 := { m1 with program_counter := m1.program_counter + (op.len - 1) }
      (Instr.run op.instr m2 address).bind (fun m3 =>
        if 255 < m3.remaining_cycles + op.cycles then none else
        finishCycle { m3 with remaining_cycles := m3.remaining_cycles + op.cycles }))
  else finishCycle m

/-- Iterated `cycle`. -/
def cycleN (table : Nat → OpEntry) : Nat → Machine → Option Machine
  | 0, m => some m
  | n + 1, m => (cycle table m).bind (cycleN table n)

/-- `CPU::step`: one `cycle`, then the `while remaining_cycles != 0`
drain loop.  Each drain iteration decrements `remaining_cycles` by
exactly one, so the loop body runs precisely `remaining_cycles` more
times; `cycleN` with that count is the loop. -/
def step (table : Nat → OpEntry) (m : Machine) : Option Machine :=
  (cycle table m).bind (fun m1 => cycleN table m1.remaining_cycles m1)

/-- Iterated `step`. -/
def stepN (table : Nat → OpEntry) : Nat → Machine → Option Machine
  | 0, m => some m
  | n + 1, m => (step table m).bind (stepN table n)

/-- `CPU::run_until_brk`, with fuel standing in for the unbounded
`while !self.status.contains(StatusFlags::B)` loop. -/
def run_until_brk (table : Nat → OpEntry) : Nat → Machine → Option Machine
  | 0, _ => none
  | n + 1, m =>
    if m.status &&& 16 ≠ 0 then some m
    else (step table m).bind (run_until_brk table n)

/-- `CPU::new` coupled with a flat RAM bus: registers zero, stack
pointer `0xfd`, status `0x24`. -/
def new (pc : Nat) (ram : Nat → Nat) : Machine where
  accumulator := 0
  x_register := 0
  y_register := 0
  program_counter := pc
  remaining_cycles := 0
  status := 0x24
  total_cycles := 0
  stack_pointer := 0xfd
  ram := ram

end Machine

/-! ## Trace (src/cpu.rs, `CPU::trace` and `CPU::hexdump`)

`trace` renders the nestest-format line.  It takes `&self`, so it cannot
touch the CPU registers, but every byte it renders is fetched through
`Bus::read`; with the composite `NesBus` backing, reads in the
`$2000-$3FFF` window go through `PPU::cpu_read` and mutate the PPU, so
the embedding returns the successor bus state alongside the rendered
data. -/

/-- The fields interpolated into the `format!` string of `CPU::trace`. -/
structure TraceLine where
  pc : Nat
  bytes : List Nat
  name : String
  a : Nat
  x : Nat
  y : Nat
  p : Nat
  sp : Nat
  cyc : Nat

/-- The read loop of `CPU::hexdump`, threading the (side-effecting) bus
through `count` consecutive reads. -/
def NesBus.readRange (b : NesBus) (start : Nat) : Nat → Option (List Nat × NesBus)
  | 0 => some ([], b)
  | n + 1 =>
    (b.read start).bind (fun r =>
      (NesBus.readRange r.2 (start + 1) n).map (fun s => (r.1 :: s.1, s.2)))

/-- `CPU::trace` over a `NesBus` backing: read the opcode at PC, look it
up, hexdump `[PC, PC + len)`, and render the line.  The unchecked u16
addition `program_counter + op.len()` and the u64 addition
`total_cycles + 7` are `none` on overflow. -/
def CPU.trace (c : CPU) (b : NesBus) : Option (TraceLine × NesBus) :=
  (b.read c.program_counter).bind (fun r =>
    let op := OPCODE_TABLE r.1
    if 0xFFFF < c.program_counter + op.len then none else
    if 0xFFFFFFFFFFFFFFFF < c.total_cycles + 7 then none else
    (NesBus.readRange r.2 c.program_counter op.len).map (fun s =>
      ({ pc := c.program_counter, bytes := s.1, name := op.name,
         a := c.accumulator, x := c.x_register, y := c.y_register,
         p := c.status, sp := c.stack_pointer,
         cyc := c.total_cycles + 7 }, s.2)))

/-! ## Concrete fixtures used by counterexamples and witnesses -/

/-- A trivial cartridge: zeroed RAM and an empty PRG-ROM.  Counterexample
addresses below never reach the PRG-ROM vector. -/
def cart0 : Cartridge where
  cartridge_ram := fun _ => 0
  prg_rom := []

/-- PPU with the VRAM address parked at the palette base, a marker byte
in palette slot 0 and a different marker in the nametable cell that
mirrors underneath `$3F00` (VRAM `$2F00`, internal index `$700`). -/
def ppuPalette : PPU := { PPU.new with
  vram_addr := 0x3F00
  palette_ram := upd (fun _ => 0) 0 0xAB
  vram := upd (fun _ => 0) 0x700 0xCD }

/-- PPU one dot before the transition into the pre-render scanline 261,
with both VBlank (128) and sprite-zero-hit (64) latched. -/
def ppuPreRender : PPU := { PPU.new with
  cycle := 340
  scanline := 260
  status := 0xC0 }

/-- CPU register file whose program counter points into the PPU register
window (at the PPUDATA mirror `$2007`), as left by `CPU::new(0x2007, _)`. -/
def cpuAtPpuData : CPU where
  accumulator := 0
  x_register := 0
  y_register := 0
  program_counter := 0x2007
  remaining_cycles := 0
  status := 0x24
  total_cycles := 0
  stack_pointer := 0xfd

/-- CPU register file with the program counter in low RAM, as left by
`CPU::new(0x0000, _)`. -/
def cpuLowPC : CPU where
  accumulator := 0
  x_register := 0
  y_register := 0
  program_counter := 0
  remaining_cycles := 0
  status := 0x24
  total_cycles := 0
  stack_pointer := 0xfd

/-- Machine with accumulator `0x50`, carry clear, and `0x50` at every
RAM cell: the ADC overflow example. -/
def m50 : Machine := { Machine.new 0 (fun _ => 0x50) with accumulator := 0x50 }

/-- The simple-program RAM image: `A9 10 85 20 A9 01 65 20 85 21 E6 21
A4 21 C8 00` loaded at `$0000`, zero elsewhere. -/
def ramC8 : Nat → Nat := fun a =>
  [0xA9, 0x10, 0x85, 0x20, 0xA9, 0x01, 0x65, 0x20,
   0x85, 0x21, 0xE6, 0x21, 0xA4, 0x21, 0xC8, 0x00].getD a 0

/-! ## Bit-level lemma kit -/

/-- Writing a single-bit flag leaves the given bit alone whenever the
flag has that bit clear and the 8-bit complement mask has it set. -/
theorem testBit_setFlag_ne (p f j : Nat) (b : Bool)
    (h1 : f.testBit j = false) (h2 : Nat.testBit (255 ^^^ f) j = true) :
    (setFlag p f b).testBit j = p.testBit j := by
  unfold setFlag
  cases b <;> simp [Nat.testBit_lor, Nat.testBit_land, h1, h2]

/-- Writing a single-bit flag overwrites its own bit. -/
theorem testBit_setFlag_self (p f j : Nat) (b : Bool)
    (h1 : f.testBit j = true) (h2 : Nat.testBit (255 ^^^ f) j = false) :
    (setFlag p f b).testBit j = b := by
  unfold setFlag
  cases b <;> simp [Nat.testBit_lor, Nat.testBit_land, h1, h2]

@[simp] theorem setFlag_bit5_c (p : Nat) (b : Bool) :
    (setFlag p 1 b).testBit 5 = p.testBit 5 :=
  testBit_setFlag_ne p 1 5 b (by decide) (by decide)

@[simp] theorem setFlag_bit5_z (p : Nat) (b : Bool) :
    (setFlag p 2 b).testBit 5 = p.testBit 5 :=
  testBit_setFlag_ne p 2 5 b (by decide) (by decide)

@[simp] theorem setFlag_bit5_i (p : Nat) (b : Bool) :
    (setFlag p 4 b).testBit 5 = p.testBit 5 :=
  testBit_setFlag_ne p 4 5 b (by decide) (by decide)

@[simp] theorem setFlag_bit5_d (p : Nat) (b : Bool) :
    (setFlag p 8 b).testBit 5 = p.testBit 5 :=
  testBit_setFlag_ne p 8 5 b (by decide) (by decide)

@[simp] theorem setFlag_bit5_b (p : Nat) (b : Bool) :
    (setFlag p 16 b).testBit 5 = p.testBit 5 :=
  testBit_setFlag_ne p 16 5 b (by decide) (by decide)

@[simp] theorem setFlag_bit5_o (p : Nat) (b : Bool) :
    (setFlag p 64 b).testBit 5 = p.testBit 5 :=
  testBit_setFlag_ne p 64 5 b (by decide) (by decide)

@[simp] theorem setFlag_bit5_n (p : Nat) (b : Bool) :
    (setFlag p 128 b).testBit 5 = p.testBit 5 :=
  testBit_setFlag_ne p 128 5 b (by decide) (by decide)

@[simp] theorem setFlag_bit5_x (p : Nat) (b : Bool) :
    (setFlag p 32 b).testBit 5 = b :=
  testBit_setFlag_self p 32 5 b (by decide) (by decide)

@[simp] theorem lor_one_bit5 (p : Nat) : (p ||| 1).testBit 5 = p.testBit 5 := by
  simp [Nat.testBit_lor, (by decide : Nat.testBit 1 5 = false)]

@[simp] theorem lor_four_bit5 (p : Nat) : (p ||| 4).testBit 5 = p.testBit 5 := by
  simp [Nat.testBit_lor, (by decide : Nat.testBit 4 5 = false)]

@[simp] theorem lor_eight_bit5 (p : Nat) : (p ||| 8).testBit 5 = p.testBit 5 := by
  simp [Nat.testBit_lor, (by decide : Nat.testBit 8 5 = false)]

@[simp] theorem lor_sixteen_bit5 (p : Nat) : (p ||| 16).testBit 5 = p.testBit 5 := by
  simp [Nat.testBit_lor, (by decide : Nat.testBit 16 5 = false)]

@[simp] theorem land_254_bit5 (p : Nat) : (p &&& 254).testBit 5 = p.testBit 5 := by
  simp [Nat.testBit_land, (by decide : Nat.testBit 254 5 = true)]

@[simp] theorem land_251_bit5 (p : Nat) : (p &&& 251).testBit 5 = p.testBit 5 := by
  simp [Nat.testBit_land, (by decide : Nat.testBit 251 5 = true)]

@[simp] theorem land_247_bit5 (p : Nat) : (p &&& 247).testBit 5 = p.testBit 5 := by
  simp [Nat.testBit_land, (by decide : Nat.testBit 247 5 = true)]

@[simp] theorem land_191_bit5 (p : Nat) : (p &&& 191).testBit 5 = p.testBit 5 := by
  simp [Nat.testBit_land, (by decide : Nat.testBit 191 5 = true)]

@[simp] theorem land_255_bit5 (p : Nat) : (p &&& 255).testBit 5 = p.testBit 5 := by
  simp [Nat.testBit_land, (by decide : Nat.testBit 255 5 = true)]

/-- The bitflags `contains(X)` test is exactly bit 5. -/
@[simp] theorem decide_land32_eq_bit5 (p : Nat) :
    decide (p &&& 32 ≠ 0) = p.testBit 5 := by
  rw [show (32 : Nat) = 2 ^ 5 by rfl, Nat.and_two_pow]
  cases h : p.testBit 5 <;> simp

@[simp] theorem decide_land32_eq_zero_bit5 (p : Nat) :
    decide (p &&& 32 = 0) = !p.testBit 5 := by
  rw [show (32 : Nat) = 2 ^ 5 by rfl, Nat.and_two_pow]
  cases h : p.testBit 5 <;> simp

@[simp] theorem testBit_one_five : Nat.testBit 1 5 = false := by decide
@[simp] theorem testBit_four_five : Nat.testBit 4 5 = false := by decide
@[simp] theorem testBit_eight_five : Nat.testBit 8 5 = false := by decide
@[simp] theorem testBit_sixteen_five : Nat.testBit 16 5 = false := by decide
@[simp] theorem testBit_254_five : Nat.testBit 254 5 = true := by decide
@[simp] theorem testBit_251_five : Nat.testBit 251 5 = true := by decide
@[simp] theorem testBit_247_five : Nat.testBit 247 5 = true := by decide
@[simp] theorem testBit_191_five : Nat.testBit 191 5 = true := by decide
@[simp] theorem testBit_255_five : Nat.testBit 255 5 = true := by decide

/-! ## Status-projection lemmas for the machine helpers -/

namespace Machine

@[simp] theorem busWrite_status (m : Machine) (a v : Nat) :
    (m.busWrite a v).status = m.status := rfl

@[simp] theorem push_stack_status (m : Machine) (d : Nat) :
    (m.push_stack d).status = m.status := rfl

@[simp] theorem push_stack_16_status (m : Machine) (d : Nat) :
    (m.push_stack_16 d).status = m.status := rfl

@[simp] theorem pop_stack_fst_status (m : Machine) :
    (m.pop_stack).1.status = m.status := rfl

@[simp] theorem pop_stack_16_fst_status (m : Machine) :
    (m.pop_stack_16).1.status = m.status := rfl

@[simp] theorem setFlagM_status (m : Machine) (f : Nat) (b : Bool) :
    (m.setFlagM f b).status = setFlag m.status f b := rfl

@[simp] theorem set_zero_or_neg_flags_bit5 (m : Machine) (v : Nat) :
    (m.set_zero_or_neg_flags v).status.testBit 5 = m.status.testBit 5 := by
  simp [set_zero_or_neg_flags]

@[simp] theorem asl_inner_fst_bit5 (m : Machine) (v : Nat) :
    ((m.asl_inner v).1).status.testBit 5 = m.status.testBit 5 := by
  simp [asl_inner]

@[simp] theorem lsr_inner_fst_bit5 (m : Machine) (v : Nat) :
    ((m.lsr_inner v).1).status.testBit 5 = m.status.testBit 5 := by
  simp [lsr_inner]

@[simp] theorem rol_inner_fst_bit5 (m : Machine) (v : Nat) :
    ((m.rol_inner v).1).status.testBit 5 = m.status.testBit 5 := by
  simp [rol_inner]

@[simp] theorem ror_inner_fst_bit5 (m : Machine) (v : Nat) :
    ((m.ror_inner v).1).status.testBit 5 = m.status.testBit 5 := by
  simp [ror_inner]

/-- ADC preserves the unused X bit. -/
theorem adc_bit5 {m : Machine} {a : Address} {m2 : Machine}
    (h : m.adc a = some m2) : m2.status.testBit 5 = m.status.testBit 5 := by
  cases a with
  | implied => simp [adc] at h
  | relative v => simp [adc] at h
  | absolute x =>
    simp only [adc, Option.some.injEq] at h
    subst h
    simp

theorem and_bit5 {m : Machine} {a : Address} {m2 : Machine}
    (h : m.and a = some m2) : m2.status.testBit 5 = m.status.testBit 5 := by
  cases a with
  | implied => simp [and] at h
  | relative v => simp [and] at h
  | absolute x =>
    simp only [and, Option.some.injEq] at h
    subst h
    simp

theorem asl_bit5 {m : Machine} {a : Address} {m2 : Machine}
    (h : m.asl a = some m2) : m2.status.testBit 5 = m.status.testBit 5 := by
  cases a with
  | implied =>
    simp only [asl, Option.some.injEq] at h
    subst h
    simp
  | relative v => simp [asl] at h
  | absolute x =>
    simp only [asl, Option.some.injEq] at h
    subst h
    simp

theorem lsr_bit5 {m : Machine} {a : Address} {m2 : Machine}
    (h : m.lsr a = some m2) : m2.status.testBit 5 = m.status.testBit 5 := by
  cases a with
  | implied =>
    simp only [lsr, Option.some.injEq] at h
    subst h
    simp
  | relative v => simp [lsr] at h
  | absolute x =>
    simp only [lsr, Option.some.injEq] at h
    subst h
    simp

theorem rol_bit5 {m : Machine} {a : Address} {m2 : Machine}
    (h : m.rol a = some m2) : m2.status.testBit 5 = m.status.testBit 5 := by
  cases a with
  | implied =>
    simp only [rol, Option.some.injEq] at h
    subst h
    simp
  | relative v => simp [rol] at h
  | absolute x =>
    simp only [rol, Option.some.injEq] at h
    subst h
    simp

theorem ror_bit5 {m : Machine} {a : Address} {m2 : Machine}
    (h : m.ror a = some m2) : m2.status.testBit 5 = m.status.testBit 5 := by
  cases a with
  | implied =>
    simp only [ror, Option.some.injEq] at h
    subst h
    simp
  | relative v => simp [ror] at h
  | absolute x =>
    simp only [ror, Option.some.injEq] at h
    subst h
    simp

theorem branch_bit5 {m : Machine} {a : Address} {c : Bool} {m2 : Machine}
    (h : m.branch a c = some m2) : m2.status.testBit 5 = m.status.testBit 5 := by
  cases a with
  | implied => simp [branch] at h
  | absolute x => simp [branch] at h
  | relative v =>
    simp only [branch] at h
    split at h
    · simp only [Option.some.injEq] at h
      subst h
      split <;> rfl
    · simp only [Option.some.injEq] at h
      subst h
      rfl

theorem bit_bit5 {m : Machine} {a : Address} {m2 : Machine}
    (h : m.bit a = some m2) : m2.status.testBit 5 = m.status.testBit 5 := by
  cases a with
  | implied => simp [bit] at h
  | relative v => simp [bit] at h
  | absolute x =>
    simp only [bit, Option.some.injEq] at h
    subst h
    simp

theorem brk_bit5 {m : Machine} {a : Address} {m2 : Machine}
    (h : m.brk a = some m2) : m2.status.testBit 5 = m.status.testBit 5 := by
  cases a with
  | implied =>
    simp only [brk, Option.some.injEq] at h
    subst h
    simp
  | relative v => simp [brk] at h
  | absolute x => simp [brk] at h

theorem clc_bit5 {m : Machine} {a : Address} {m2 : Machine}
    (h : m.clc a = some m2) : m2.status.testBit 5 = m.status.testBit 5 := by
  cases a with
  | implied =>
    simp only [clc, Option.some.injEq] at h
    subst h
    simp
  | relative v => simp [clc] at h
  | absolute x => simp [clc] at h

theorem cld_bit5 {m : Machine} {a : Address} {m2 : Machine}
    (h : m.cld a = some m2) : m2.status.testBit 5 = m.status.testBit 5 := by
  cases a with
  | implied =>
    simp only [cld, Option.some.injEq] at h
    subst h
    simp
  | relative v => simp [cld] at h
  | absolute x => simp [cld] at h

theorem cli_bit5 {m : Machine} {a : Address} {m2 : Machine}
    (h : m.cli a = some m2) : m2.status.testBit 5 = m.status.testBit 5 := by
  cases a with
  | implied =>
    simp only [cli, Option.some.injEq] at h
    subst h
    simp
  | relative v => simp [cli] at h
  | absolute x => simp [cli] at h

theorem clv_bit5 {m : Machine} {a : Address} {m2 : Machine}
    (h : m.clv a = some m2) : m2.status.testBit 5 = m.status.testBit 5 := by
  cases a with
  | implied =>
    simp only [clv, Option.some.injEq] at h
    subst h
    simp
  | relative v => simp [clv] at h
  | absolute x => simp [clv] at h

theorem sec_bit5 {m : Machine} {a : Address} {m2 : Machine}
    (h : m.sec a = some m2) : m2.status.testBit 5 = m.status.testBit 5 := by
  cases a with
  | implied =>
    simp only [sec, Option.some.injEq] at h
    subst h
    simp
  | relative v => simp [sec] at h
  | absolute x => simp [sec] at h

theorem sed_bit5 {m : Machine} {a : Address} {m2 : Machine}
    (h : m.sed a = some m2) : m2.status.testBit 5 = m.status.testBit 5 := by
  cases a with
  | implied =>
    simp only [sed, Option.some.injEq] at h
    subst h
    simp
  | relative v => simp [sed] at h
  | absolute x => simp [sed] at h

theorem sei_bit5 {m : Machine} {a : Address} {m2 : Machine}
    (h : m.sei a = some m2) : m2.status.testBit 5 = m.status.testBit 5 := by
  cases a with
  | implied =>
    simp only [sei, Option.some.injEq] at h
    subst h
    simp
  | relative v => simp [sei] at h
  | absolute x => simp [sei] at h

theorem compare_bit5 {m : Machine} {a : Address} {r : Nat} {m2 : Machine}
    (h : m.compare a r = some m2) : m2.status.testBit 5 = m.status.testBit 5 := by
  cases a with
  | implied => simp [compare] at h
  | relative v => simp [compare] at h
  | absolute x =>
    simp only [compare, Option.some.injEq] at h
    subst h
    simp

theorem cmp_bit5 {m : Machine} {a : Address} {m2 : Machine}
    (h : m.cmp a = some m2) : m2.status.testBit 5 = m.status.testBit 5 :=
  compare_bit5 h

theorem cpx_bit5 {m : Machine} {a : Address} {m2 : Machine}
    (h : m.cpx a = some m2) : m2.status.testBit 5 = m.status.testBit 5 :=
  compare_bit5 h

theorem cpy_bit5 {m : Machine} {a : Address} {m2 : Machine}
    (h : m.cpy a = some m2) : m2.status.testBit 5 = m.status.testBit 5 :=
  compare_bit5 h

theorem dec_bit5 {m : Machine} {a : Address} {m2 : Machine}
    (h : m.dec a = some m2) : m2.status.testBit 5 = m.status.testBit 5 := by
  cases a with
  | implied => simp [dec] at h
  | relative v => simp [dec] at h
  | absolute x =>
    simp only [dec, Option.some.injEq] at h
    subst h
    simp

theorem dex_bit5 {m : Machine} {a : Address} {m2 : Machine}
    (h : m.dex a = some m2) : m2.status.testBit 5 = m.status.testBit 5 := by
  cases a with
  | implied =>
    simp only [dex, Option.some.injEq] at h
    subst h
    simp
  | relative v => simp [dex] at h
  | absolute x => simp [dex] at h

theorem dey_bit5 {m : Machine} {a : Address} {m2 : Machine}
    (h : m.dey a = some m2) : m2.status.testBit 5 = m.status.testBit 5 := by
  cases a with
  | implied =>
    simp only [dey, Option.some.injEq] at h
    subst h
    simp
  | relative v => simp [dey] at h
  | absolute x => simp [dey] at h

theorem eor_bit5 {m : Machine} {a : Address} {m2 : Machine}
    (h : m.eor a = some m2) : m2.status.testBit 5 = m.status.testBit 5 := by
  cases a with
  | implied => simp [eor] at h
  | relative v => simp [eor] at h
  | absolute x =>
    simp only [eor, Option.some.injEq] at h
    subst h
    simp

theorem inc_bit5 {m : Machine} {a : Address} {m2 : Machine}
    (h : m.inc a = some m2) : m2.status.testBit 5 = m.status.testBit 5 := by
  cases a with
  | implied => simp [inc] at h
  | relative v => simp [inc] at h
  | absolute x =>
    simp only [inc, Option.some.injEq] at h
    subst h
    simp

theorem inx_bit5 {m : Machine} {a : Address} {m2 : Machine}
    (h : m.inx a = some m2) : m2.status.testBit 5 = m.status.testBit 5 := by
  cases a with
  | implied =>
    simp only [inx, Option.some.injEq] at h
    subst h
    simp
  | relative v => simp [inx] at h
  | absolute x => simp [inx] at h

theorem iny_bit5 {m : Machine} {a : Address} {m2 : Machine}
    (h : m.iny a = some m2) : m2.status.testBit 5 = m.status.testBit 5 := by
  cases a with
  | implied =>
    simp only [iny, Option.some.injEq] at h
    subst h
    simp
  | relative v => simp [iny] at h
  | absolute x => simp [iny] at h

theorem jmp_bit5 {m : Machine} {a : Address} {m2 : Machine}
    (h : m.jmp a = some m2) : m2.status.testBit 5 = m.status.testBit 5 := by
  cases a with
  | implied => simp [jmp] at h
  | relative v => simp [jmp] at h
  | absolute x =>
    simp only [jmp, Option.some.injEq] at h
    subst h
    rfl

theorem jsr_bit5 {m : Machine} {a : Address} {m2 : Machine}
    (h : m.jsr a = some m2) : m2.status.testBit 5 = m.status.testBit 5 := by
  cases a with
  | implied => simp [jsr] at h
  | relative v => simp [jsr] at h
  | absolute x =>
    simp only [jsr] at h
    split at h
    · exact absurd h (by simp)
    · simp only [Option.some.injEq] at h
      subst h
      simp

theorem lda_bit5 {m : Machine} {a : Address} {m2 : Machine}
    (h : m.lda a = some m2) : m2.status.testBit 5 = m.status.testBit 5 := by
  cases a with
  | implied => simp [lda] at h
  | relative v => simp [lda] at h
  | absolute x =>
    simp only [lda, Option.some.injEq] at h
    subst h
    simp

theorem ldx_bit5 {m : Machine} {a : Address} {m2 : Machine}
    (h : m.ldx a = some m2) : m2.status.testBit 5 = m.status.testBit 5 := by
  cases a with
  | implied => simp [ldx] at h
  | relative v => simp [ldx] at h
  | absolute x =>
    simp only [ldx, Option.some.injEq] at h
    subst h
    simp

theorem ldy_bit5 {m : Machine} {a : Address} {m2 : Machine}
    (h : m.ldy a = some m2) : m2.status.testBit 5 = m.status.testBit 5 := by
  cases a with
  | implied => simp [ldy] at h
  | relative v => simp [ldy] at h
  | absolute x =>
    simp only [ldy, Option.some.injEq] at h
    subst h
    simp

theorem nop_bit5 {m : Machine} {a : Address} {m2 : Machine}
    (h : m.nop a = some m2) : m2.status.testBit 5 = m.status.testBit 5 := by
  simp only [nop, Option.some.injEq] at h
  subst h
  rfl

theorem ora_bit5 {m : Machine} {a : Address} {m2 : Machine}
    (h : m.ora a = some m2) : m2.status.testBit 5 = m.status.testBit 5 := by
  cases a with
  | implied => simp [ora] at h
  | relative v => simp [ora] at h
  | absolute x =>
    simp only [ora, Option.some.injEq] at h
    subst h
    simp

theorem pha_bit5 {m : Machine} {a : Address} {m2 : Machine}
    (h : m.pha a = some m2) : m2.status.testBit 5 = m.status.testBit 5 := by
  cases a with
  | implied =>
    simp only [pha, Option.some.injEq] at h
    subst h
    simp
  | relative v => simp [pha] at h
  | absolute x => simp [pha] at h

theorem php_bit5 {m : Machine} {a : Address} {m2 : Machine}
    (h : m.php a = some m2) : m2.status.testBit 5 = m.status.testBit 5 := by
  cases a with
  | implied =>
    simp only [php, Option.some.injEq] at h
    subst h
    simp
  | relative v => simp [php] at h
  | absolute x => simp [php] at h

theorem pla_bit5 {m : Machine} {a : Address} {m2 : Machine}
    (h : m.pla a = some m2) : m2.status.testBit 5 = m.status.testBit 5 := by
  cases a with
  | implied =>
    simp only [pla, Option.some.injEq] at h
    subst h
    simp
  | relative v => simp [pla] at h
  | absolute x => simp [pla] at h

theorem plp_bit5 {m : Machine} {a : Address} {m2 : Machine}
    (h : m.plp a = some m2) : m2.status.testBit 5 = m.status.testBit 5 := by
  cases a with
  | implied =>
    simp only [plp, Option.some.injEq] at h
    subst h
    simp
  | relative v => simp [plp] at h
  | absolute x => simp [plp] at h

theorem rts_bit5 {m : Machine} {a : Address} {m2 : Machine}
    (h : m.rts a = some m2) : m2.status.testBit 5 = m.status.testBit 5 := by
  cases a with
  | implied =>
    simp only [rts] at h
    split at h
    · exact absurd h (by simp)
    · simp only [Option.some.injEq] at h
      subst h
      simp
  | relative v => simp [rts] at h
  | absolute x => simp [rts] at h

theorem sax_bit5 {m : Machine} {a : Address} {m2 : Machine}
    (h : m.sax a = some m2) : m2.status.testBit 5 = m.status.testBit 5 := by
  cases a with
  | implied => simp [sax] at h
  | relative v => simp [sax] at h
  | absolute x =>
    simp only [sax, Option.some.injEq] at h
    subst h
    simp

theorem sbc_bit5 {m : Machine} {a : Address} {m2 : Machine}
    (h : m.sbc a = some m2) : m2.status.testBit 5 = m.status.testBit 5 := by
  cases a with
  | implied => simp [sbc] at h
  | relative v => simp [sbc] at h
  | absolute x =>
    simp only [sbc, Option.some.injEq] at h
    subst h
    simp

theorem sta_bit5 {m : Machine} {a : Address} {m2 : Machine}
    (h : m.sta a = some m2) : m2.status.testBit 5 = m.status.testBit 5 := by
  cases a with
  | implied => simp [sta] at h
  | relative v => simp [sta] at h
  | absolute x =>
    simp only [sta, Option.some.injEq] at h
    subst h
    simp

theorem stx_bit5 {m : Machine} {a : Address} {m2 : Machine}
    (h : m.stx a = some m2) : m2.status.testBit 5 = m.status.testBit 5 := by
  cases a with
  | implied => simp [stx] at h
  | relative v => simp [stx] at h
  | absolute x =>
    simp only [stx, Option.some.injEq] at h
    subst h
    simp

theorem sty_bit5 {m : Machine} {a : Address} {m2 : Machine}
    (h : m.sty a = some m2) : m2.status.testBit 5 = m.status.testBit 5 := by
  cases a with
  | implied => simp [sty] at h
  | relative v => simp [sty] at h
  | absolute x =>
    simp only [sty, Option.some.injEq] at h
    subst h
    simp

theorem tax_bit5 {m : Machine} {a : Address} {m2 : Machine}
    (h : m.tax a = some m2) : m2.status.testBit 5 = m.status.testBit 5 := by
  cases a with
  | implied =>
    simp only [tax, Option.some.injEq] at h
    subst h
    simp
  | relative v => simp [tax] at h
  | absolute x => simp [tax] at h

theorem tay_bit5 {m : Machine} {a : Address} {m2 : Machine}
    (h : m.tay a = some m2) : m2.status.testBit 5 = m.status.testBit 5 := by
  cases a with
  | implied =>
    simp only [tay, Option.some.injEq] at h
    subst h
    simp
  | relative v => simp [tay] at h
  | absolute x => simp [tay] at h

theorem tsx_bit5 {m : Machine} {a : Address} {m2 : Machine}
    (h : m.tsx a = some m2) : m2.status.testBit 5 = m.status.testBit 5 := by
  cases a with
  | implied =>
    simp only [tsx, Option.some.injEq] at h
    subst h
    simp
  | relative v => simp [tsx] at h
  | absolute x => simp [tsx] at h

theorem txa_bit5 {m : Machine} {a : Address} {m2 : Machine}
    (h : m.txa a = some m2) : m2.status.testBit 5 = m.status.testBit 5 := by
  cases a with
  | implied =>
    simp only [txa, Option.some.injEq] at h
    subst h
    simp
  | relative v => simp [txa] at h
  | absolute x => simp [txa] at h

theorem txs_bit5 {m : Machine} {a : Address} {m2 : Machine}
    (h : m.txs a = some m2) : m2.status.testBit 5 = m.status.testBit 5 := by
  cases a with
  | implied =>
    simp only [txs, Option.some.injEq] at h
    subst h
    rfl
  | relative v => simp [txs] at h
  | absolute x => simp [txs] at h

theorem tya_bit5 {m : Machine} {a : Address} {m2 : Machine}
    (h : m.tya a = some m2) : m2.status.testBit 5 = m.status.testBit 5 := by
  cases a with
  | implied =>
    simp only [tya, Option.some.injEq] at h
    subst h
    simp
  | relative v => simp [tya] at h
  | absolute x => simp [tya] at h

theorem alr_bit5 {m : Machine} {a : Address} {m2 : Machine}
    (h : m.alr a = some m2) : m2.status.testBit 5 = m.status.testBit 5 := by
  rcases Option.bind_eq_some.mp h with ⟨mm, h1, h2⟩
  rw [lsr_bit5 h2, and_bit5 h1]

theorem anc_bit5 {m : Machine} {a : Address} {m2 : Machine}
    (h : m.anc a = some m2) : m2.status.testBit 5 = m.status.testBit 5 := by
  rcases Option.map_eq_some'.mp h with ⟨mm, h1, h2⟩
  subst h2
  simp only [setFlagM_status, setFlag_bit5_c]
  exact and_bit5 h1

theorem dcp_bit5 {m : Machine} {a : Address} {m2 : Machine}
    (h : m.dcp a = some m2) : m2.status.testBit 5 = m.status.testBit 5 := by
  rcases Option.bind_eq_some.mp h with ⟨mm, h1, h2⟩
  rw [cmp_bit5 h2, dec_bit5 h1]

theorem isc_bit5 {m : Machine} {a : Address} {m2 : Machine}
    (h : m.isc a = some m2) : m2.status.testBit 5 = m.status.testBit 5 := by
  rcases Option.bind_eq_some.mp h with ⟨mm, h1, h2⟩
  rw [sbc_bit5 h2, inc_bit5 h1]

theorem lax_bit5 {m : Machine} {a : Address} {m2 : Machine}
    (h : m.lax a = some m2) : m2.status.testBit 5 = m.status.testBit 5 := by
  rcases Option.bind_eq_some.mp h with ⟨mm, h1, h2⟩
  rw [ldx_bit5 h2, lda_bit5 h1]

theorem rla_bit5 {m : Machine} {a : Address} {m2 : Machine}
    (h : m.rla a = some m2) : m2.status.testBit 5 = m.status.testBit 5 := by
  rcases Option.bind_eq_some.mp h with ⟨mm, h1, h2⟩
  rw [and_bit5 h2, rol_bit5 h1]

theorem rra_bit5 {m : Machine} {a : Address} {m2 : Machine}
    (h : m.rra a = some m2) : m2.status.testBit 5 = m.status.testBit 5 := by
  rcases Option.bind_eq_some.mp h with ⟨mm, h1, h2⟩
  rw [adc_bit5 h2, ror_bit5 h1]

theorem slo_bit5 {m : Machine} {a : Address} {m2 : Machine}
    (h : m.slo a = some m2) : m2.status.testBit 5 = m.status.testBit 5 := by
  rcases Option.bind_eq_some.mp h with ⟨mm, h1, h2⟩
  rw [ora_bit5 h2, asl_bit5 h1]

theorem sre_bit5 {m : Machine} {a : Address} {m2 : Machine}
    (h : m.sre a = some m2) : m2.status.testBit 5 = m.status.testBit 5 := by
  rcases Option.bind_eq_some.mp h with ⟨mm, h1, h2⟩
  rw [eor_bit5 h2, lsr_bit5 h1]

theorem rti_bit5 {m : Machine} {a : Address} {m2 : Machine}
    (h : m.rti a = some m2) : m2.status.testBit 5 = m.status.testBit 5 := by
  rcases Option.map_eq_some'.mp h with ⟨mm, h1, h2⟩
  subst h2
  simpa using plp_bit5 h1

theorem bcc_bit5 {m : Machine} {a : Address} {m2 : Machine}
    (h : m.bcc a = some m2) : m2.status.testBit 5 = m.status.testBit 5 :=
  branch_bit5 h

theorem bcs_bit5 {m : Machine} {a : Address} {m2 : Machine}
    (h : m.bcs a = some m2) : m2.status.testBit 5 = m.status.testBit 5 :=
  branch_bit5 h

theorem beq_bit5 {m : Machine} {a : Address} {m2 : Machine}
    (h : m.beq a = some m2) : m2.status.testBit 5 = m.status.testBit 5 :=
  branch_bit5 h

theorem bne_bit5 {m : Machine} {a : Address} {m2 : Machine}
    (h : m.bne a = some m2) : m2.status.testBit 5 = m.status.testBit 5 :=
  branch_bit5 h

theorem bmi_bit5 {m : Machine} {a : Address} {m2 : Machine}
    (h : m.bmi a = some m2) : m2.status.testBit 5 = m.status.testBit 5 :=
  branch_bit5 h

theorem bpl_bit5 {m : Machine} {a : Address} {m2 : Machine}
    (h : m.bpl a = some m2) : m2.status.testBit 5 = m.status.testBit 5 :=
  branch_bit5 h

theorem bvc_bit5 {m : Machine} {a : Address} {m2 : Machine}
    (h : m.bvc a = some m2) : m2.status.testBit 5 = m.status.testBit 5 :=
  branch_bit5 h

theorem bvs_bit5 {m : Machine} {a : Address} {m2 : Machine}
    (h : m.bvs a = some m2) : m2.status.testBit 5 = m.status.testBit 5 :=
  branch_bit5 h

end Machine

/-- Every operation of the CPU preserves the unused X bit of the status
register. -/
theorem Instr.run_bit5 {i : Instr} {m : Machine} {a : Address} {m2 : Machine}
    (h : Instr.run i m a = some m2) :
    m2.status.testBit 5 = m.status.testBit 5 := by
  cases i with
  | adc => exact Machine.adc_bit5 h
  | alr => exact Machine.alr_bit5 h
  | anc => exact Machine.anc_bit5 h
  | and => exact Machine.and_bit5 h
  | asl => exact Machine.asl_bit5 h
  | bcc => exact Machine.bcc_bit5 h
  | bcs => exact Machine.bcs_bit5 h
  | beq => exact Machine.beq_bit5 h
  | bit => exact Machine.bit_bit5 h
  | bmi => exact Machine.bmi_bit5 h
  | bne => exact Machine.bne_bit5 h
  | bpl => exact Machine.bpl_bit5 h
  | brk => exact Machine.brk_bit5 h
  | bvc => exact Machine.bvc_bit5 h
  | bvs => exact Machine.bvs_bit5 h
  | clc => exact Machine.clc_bit5 h
  | cld => exact Machine.cld_bit5 h
  | cli => exact Machine.cli_bit5 h
  | clv => exact Machine.clv_bit5 h
  | cmp => exact Machine.cmp_bit5 h
  | cpx => exact Machine.cpx_bit5 h
  | cpy => exact Machine.cpy_bit5 h
  | dcp => exact Machine.dcp_bit5 h
  | dec => exact Machine.dec_bit5 h
  | dex => exact Machine.dex_bit5 h
  | dey => exact Machine.dey_bit5 h
  | eor => exact Machine.eor_bit5 h
  | inc => exact Machine.inc_bit5 h
  | inx => exact Machine.inx_bit5 h
  | iny => exact Machine.iny_bit5 h
  | isc => exact Machine.isc_bit5 h
  | jmp => exact Machine.jmp_bit5 h
  | jsr => exact Machine.jsr_bit5 h
  | lax => exact Machine.lax_bit5 h
  | lda => exact Machine.lda_bit5 h
  | ldx => exact Machine.ldx_bit5 h
  | ldy => exact Machine.ldy_bit5 h
  | lsr => exact Machine.lsr_bit5 h
  | nop => exact @Machine.nop_bit5 m a m2 h
  | ora => exact Machine.ora_bit5 h
  | pha => exact Machine.pha_bit5 h
  | php => exact Machine.php_bit5 h
  | pla => exact Machine.pla_bit5 h
  | plp => exact Machine.plp_bit5 h
  | rla => exact Machine.rla_bit5 h
  | rol => exact Machine.rol_bit5 h
  | ror => exact Machine.ror_bit5 h
  | rra => exact Machine.rra_bit5 h
  | rti => exact Machine.rti_bit5 h
  | rts => exact Machine.rts_bit5 h
  | sax => exact Machine.sax_bit5 h
  | sbc => exact Machine.sbc_bit5 h
  | sec => exact Machine.sec_bit5 h
  | sed => exact Machine.sed_bit5 h
  | sei => exact Machine.sei_bit5 h
  | slo => exact Machine.slo_bit5 h
  | sre => exact Machine.sre_bit5 h
  | sta => exact Machine.sta_bit5 h
  | stx => exact Machine.stx_bit5 h
  | sty => exact Machine.sty_bit5 h
  | tax => exact Machine.tax_bit5 h
  | tay => exact Machine.tay_bit5 h
  | tsx => exact Machine.tsx_bit5 h
  | txa => exact Machine.txa_bit5 h
  | txs => exact Machine.txs_bit5 h
  | tya => exact Machine.tya_bit5 h
  | unimpl => exact absurd h (by simp [Instr.run])

namespace Machine

theorem finishCycle_bit5 {m m2 : Machine} (h : finishCycle m = some m2) :
    m2.status.testBit 5 = m.status.testBit 5 := by
  simp only [finishCycle] at h
  split at h
  · exact absurd h (by simp)
  · split at h
    · exact absurd h (by simp)
    · simp only [Option.some.injEq] at h
      subst h
      rfl

theorem cycle_bit5 {table : Nat → OpEntry} {m m2 : Machine}
    (h : cycle table m = some m2) :
    m2.status.testBit 5 = m.status.testBit 5 := by
  simp only [cycle] at h
  split at h
  · split at h
    · exact absurd h (by simp)
    · rcases Option.bind_eq_some.mp h with ⟨addr, _, h⟩
      split at h
      · exact absurd h (by simp)
      · split at h
        · exact absurd h (by simp)
        · rcases Option.bind_eq_some.mp h with ⟨m3, hrun, h⟩
          split at h
          · exact absurd h (by simp)
          · have hA := finishCycle_bit5 h
            have hB := Instr.run_bit5 hrun
            rw [hA]
            exact hB
  · exact finishCycle_bit5 h

theorem cycleN_bit5 {table : Nat → OpEntry} {n : Nat} {m m2 : Machine}
    (h : cycleN table n m = some m2) :
    m2.status.testBit 5 = m.status.testBit 5 := by
  induction n generalizing m with
  | zero =>
    simp only [cycleN, Option.some.injEq] at h
    subst h
    rfl
  | succ k ih =>
    rcases Option.bind_eq_some.mp h with ⟨mm, h1, h2⟩
    rw [ih h2, cycle_bit5 h1]

theorem step_bit5 {table : Nat → OpEntry} {m m2 : Machine}
    (h : step table m = some m2) :
    m2.status.testBit 5 = m.status.testBit 5 := by
  rcases Option.bind_eq_some.mp h with ⟨mm, h1, h2⟩
  rw [cycleN_bit5 h2, cycle_bit5 h1]

theorem stepN_bit5 {table : Nat → OpEntry} {n : Nat} {m m2 : Machine}
    (h : stepN table n m = some m2) :
    m2.status.testBit 5 = m.status.testBit 5 := by
  induction n generalizing m with
  | zero =>
    simp only [stepN, Option.some.injEq] at h
    subst h
    rfl
  | succ k ih =>
    rcases Option.bind_eq_some.mp h with ⟨mm, h1, h2⟩
    rw [ih h2, step_bit5 h1]

end Machine

/-! ## Claim theorems -/

/-- C10: the VRAM auto-increment after a PPUDATA access is an unchecked
u16 addition that does not wrap.  From a fresh PPU, two PPUADDR writes of
`0xFF` load `v = 0xFFFF` (a reachable state), and a subsequent PPUDATA
write overflows the increment and aborts (debug-build panic) instead of
wrapping `v` modulo `2^16`. -/
theorem c10_vram_increment_overflow :
    (((PPU.new.cpu_write 0x2006 0xFF).bind (fun p => p.cpu_write 0x2006 0xFF)).map
        (fun p => p.vram_addr)) = some 0xFFFF
    ∧ (((PPU.new.cpu_write 0x2006 0xFF).bind (fun p => p.cpu_write 0x2006 0xFF)).bind
        (fun p => p.cpu_write 0x2007 0)) = none :=
  ⟨rfl, rfl⟩

/-- C8: loading `A9 10 85 20 A9 01 65 20 85 21 E6 21 A4 21 C8 00` at
`$0000` with `PC = $0000` and running until BRK terminates with
`A = 0x11`, `Y = 0x13`, `mem[$20] = 0x10`, `mem[$21] = 0x12`. -/
theorem c8_simple_program :
    (Machine.run_until_brk OPCODE_TABLE 20 (Machine.new 0 ramC8)).map
        (fun m => (m.accumulator, m.y_register, m.ram 0x20, m.ram 0x21)) =
      some (0x11, 0x13, 0x10, 0x12) := by
  decide

/-- C4 counterexample: the claim asserts a release-build write to PRG-ROM
is an ignored no-op (leaving the cartridge unchanged), but
`Cartridge::write` hits an unconditional `panic!` for every `$8000-$FFFF`
address in every build: the write aborts instead of returning the
cartridge unchanged. -/
theorem c4_counterexample :
    Cartridge.write cart0 0x8000 0x42 = none
    ∧ Cartridge.write cart0 0x8000 0x42 ≠ some cart0 := by
  have h : Cartridge.write cart0 0x8000 0x42 = none := rfl
  exact ⟨h, by rw [h]; exact fun hc => Option.noConfusion hc⟩

/-- C4 amended: a CPU write through the Cartridge to any PRG-ROM address
`$8000-$FFFF` is a fatal error (panic) in every build; the cartridge
state is never modified by such a write. -/
theorem c4_rom_write_is_panic (c : Cartridge) (a v : Nat)
    (h1 : 0x8000 ≤ a) (h2 : a ≤ 0xFFFF) :
    Cartridge.write c a v = none := by
  unfold Cartridge.write
  rw [if_neg]
  omega

/-- C4 witness: the amended theorem at a concrete ROM address. -/
theorem c4_witness : Cartridge.write cart0 0x9000 7 = none :=
  c4_rom_write_is_panic cart0 0x9000 7 (by decide) (by decide)

/-- C5 counterexample: address `$4000` lies outside the PPU register
region, yet writing `0x42` there and reading it back yields `0x00`, not
the written value: the `$4000-$5FFF` range is unmapped (write dropped,
read returns zero). -/
theorem c5_counterexample :
    ((NesBus.new cart0).write 0x4000 0x42).bind
        (fun b => (b.read 0x4000).map (fun r => r.1)) = some 0
    ∧ (0 : Nat) ≠ 0x42 :=
  ⟨rfl, by decide⟩

/-- C5 amended: for every bus state (hence after any prior write
sequence), a write of `x` to an address in internal RAM (`$0000-$1FFF`)
or cartridge RAM (`$6000-$7FFF`) followed by a read of the same address
with no intervening write returns `x`. -/
theorem c5_read_after_write (b : NesBus) (a x : Nat)
    (h : a ≤ 0x1FFF ∨ (0x6000 ≤ a ∧ a ≤ 0x7FFF)) :
    ∃ b2, b.write a x = some b2 ∧ b2.read a = some (x, b2) := by
  rcases h with h | h
  · refine ⟨{ b with cpu_vram := upd b.cpu_vram (a &&& 0x7FF) x }, ?_, ?_⟩
    · simp only [NesBus.write]
      rw [if_pos h]
    · simp only [NesBus.read]
      rw [if_pos h]
      simp [upd]
  · have hn1 : ¬ a ≤ 0x1FFF := by omega
    have hn2 : ¬ a ≤ 0x3FFF := by omega
    have hc : 0x6000 ≤ a ∧ a ≤ 0xFFFF := by omega
    refine ⟨{ b with cartridge :=
        { b.cartridge with
            cartridge_ram := upd b.cartridge.cartridge_ram (a - 0x6000) x } }, ?_, ?_⟩
    · simp only [NesBus.write]
      rw [if_neg hn1, if_neg hn2, if_pos hc]
      simp only [Cartridge.write]
      rw [if_pos h]
      rfl
    · simp only [NesBus.read]
      rw [if_neg hn1, if_neg hn2, if_pos hc]
      unfold Cartridge.read
      rw [if_pos h]
      simp [upd]

/-- C5 witness: the amended read-after-write theorem at address `$0000`
with value 7. -/
theorem c5_witness :
    ∃ b2, (NesBus.new cart0).write 0 7 = some b2 ∧ b2.read 0 = some (7, b2) :=
  c5_read_after_write (NesBus.new cart0) 0 7 (Or.inl (by decide))

/-- C2 counterexample: on the clock transition into scanline 261 the
claim says sprite-0-hit and sprite-overflow are cleared along with
VBlank, but from cycle 340 / scanline 260 with status `0xC0`
(VBlank + sprite-0-hit) the code leaves sprite-0-hit (bit 64) set:
the new status masked to the sprite bits is 64, not 0. -/
theorem c2_counterexample :
    (ppuPreRender.clock).map (fun q => (q.scanline, q.status &&& 96)) =
      some (261, 64)
    ∧ (64 : Nat) ≠ 0 :=
  ⟨rfl, by decide⟩

/-- C2 amended: the clock increments `cycle`; at 341 it resets `cycle`
and increments `scanline`; at 262 it resets `scanline` and increments
`frame`; entering scanline 241 sets VBlank; entering scanline 261 clears
only the VBlank bit, leaving sprite-0-hit and sprite-overflow untouched
(last three conjuncts).  Stated for counters inside their documented
ranges, where the unchecked increments cannot overflow. -/
theorem c2_clock (p : PPU) (h1 : p.cycle ≤ 340) (h2 : p.scanline ≤ 261)
    (h3 : p.frame < 0xFFFFFFFFFFFFFFFF) :
    (p.cycle < 340 → p.clock = some { p with cycle := p.cycle + 1 })
    ∧ (p.cycle = 340 → p.scanline = 240 →
        p.clock = some { p with cycle := 0, scanline := 241,
                                status := p.status ||| 128 })
    ∧ (p.cycle = 340 → p.scanline = 260 →
        p.clock = some { p with cycle := 0, scanline := 261,
                                status := p.status &&& 127 })
    ∧ (p.cycle = 340 → p.scanline = 261 →
        p.clock = some { p with cycle := 0, scanline := 0,
                                frame := p.frame + 1 })
    ∧ (p.cycle = 340 → p.scanline < 261 → p.scanline ≠ 240 → p.scanline ≠ 260 →
        p.clock = some { p with cycle := 0, scanline := p.scanline + 1 })
    ∧ (p.status &&& 127) &&& 64 = p.status &&& 64
    ∧ (p.status &&& 127) &&& 32 = p.status &&& 32
    ∧ (p.status &&& 127) &&& 128 = 0 := by
  refine ⟨?_, ?_, ?_, ?_, ?_, ?_, ?_, ?_⟩
  · intro hcy
    simp only [PPU.clock]
    rw [if_neg (by omega : ¬ p.cycle = 0xFFFF),
        if_neg (by omega : ¬ 341 ≤ p.cycle + 1)]
  · intro hcy hsl
    simp only [PPU.clock]
    rw [if_neg (by omega : ¬ p.cycle = 0xFFFF),
        if_pos (by omega : 341 ≤ p.cycle + 1),
        if_neg (by omega : ¬ p.scanline = 0xFFFF),
        if_neg (by omega : ¬ 262 ≤ p.scanline + 1),
        show p.scanline + 1 = 241 by omega]
    simp [PPU.clockFlags]
  · intro hcy hsl
    simp only [PPU.clock]
    rw [if_neg (by omega : ¬ p.cycle = 0xFFFF),
        if_pos (by omega : 341 ≤ p.cycle + 1),
        if_neg (by omega : ¬ p.scanline = 0xFFFF),
        if_neg (by omega : ¬ 262 ≤ p.scanline + 1),
        show p.scanline + 1 = 261 by omega]
    simp [PPU.clockFlags]
  · intro hcy hsl
    simp only [PPU.clock]
    rw [if_neg (by omega : ¬ p.cycle = 0xFFFF),
        if_pos (by omega : 341 ≤ p.cycle + 1),
        if_neg (by omega : ¬ p.scanline = 0xFFFF),
        if_pos (by omega : 262 ≤ p.scanline + 1),
        if_neg (by omega : ¬ p.frame = 0xFFFFFFFFFFFFFFFF)]
    simp [PPU.clockFlags]
  · intro hcy hsl h240 h260
    simp only [PPU.clock]
    rw [if_neg (by omega : ¬ p.cycle = 0xFFFF),
        if_pos (by omega : 341 ≤ p.cycle + 1),
        if_neg (by omega : ¬ p.scanline = 0xFFFF),
        if_neg (by omega : ¬ 262 ≤ p.scanline + 1)]
    simp only [PPU.clockFlags]
    rw [if_neg (by simp; omega), if_neg (by simp; omega)]
  · rw [Nat.land_assoc, (by decide : (127 : Nat) &&& 64 = 64)]
  · rw [Nat.land_assoc, (by decide : (127 : Nat) &&& 32 = 32)]
  · rw [Nat.land_assoc, (by decide : (127 : Nat) &&& 128 = 0), Nat.and_zero]

/-- C2 witness: the amended clock theorem at the fresh PPU (cycle 0,
scanline 241): one dot just advances the cycle counter. -/
theorem c2_witness :
    PPU.new.clock = some { PPU.new with cycle := PPU.new.cycle + 1 } :=
  (c2_clock PPU.new (by decide) (by decide) (by decide)).1 (by decide)

/-- C1 counterexample: at `v = $3F00` with palette byte `0xAB` and the
nametable byte underneath (`VRAM $2F00`) equal to `0xCD`, a PPUDATA read
returns the live palette byte but refills the buffer with that same
palette byte and leaves `v` unchanged; the claim predicted buffer
`0xCD` (the mirrored nametable) and `v = $3F01`. -/
theorem c1_counterexample :
    (ppuPalette.cpu_read 0x2007).map
        (fun r => (r.1, (r.2).data_buffer, (r.2).vram_addr)) =
      some (0xAB, 0xAB, 0x3F00)
    ∧ ppuPalette.read_vram 0x2F00 = 0xCD
    ∧ some ((0xAB : Nat), (0xAB : Nat), (0x3F00 : Nat)) ≠
        some ((0xAB : Nat), (0xCD : Nat), (0x3F01 : Nat)) :=
  ⟨rfl, rfl, by decide⟩

/-- C1 amended: a PPUDATA read with `v` in `$3F00-$3FFF` returns the
live palette byte, refills the buffer with that same palette byte, and
does not increment `v`; with `v` below `$3F00` it returns the previously
buffered byte, refills the buffer from `v`, and increments `v` by 1 or
32 according to the PPUCTRL increment bit.  In particular two
consecutive reads at `v = $2000` return first the stale buffer and then
the byte stored at VRAM `$2000`. -/
theorem c1_ppudata_read (p : PPU) :
    (0x3F00 ≤ p.vram_addr → p.vram_addr ≤ 0x3FFF →
      p.cpu_read 0x2007 =
        some (p.read_vram p.vram_addr,
              { p with data_buffer := p.read_vram p.vram_addr })
      ∧ p.read_vram p.vram_addr =
          p.palette_ram ((p.vram_addr - 0x3F00) &&& 0x1F))
    ∧ (p.vram_addr < 0x3F00 →
      p.cpu_read 0x2007 =
        some (p.data_buffer,
              { p with data_buffer := p.read_vram p.vram_addr,
                       vram_addr := p.vram_addr + p.vramStep }))
    ∧ (p.vram_addr = 0x2000 →
      ((p.cpu_read 0x2007).bind
          (fun r => ((r.2).cpu_read 0x2007).map (fun r2 => (r.1, r2.1)))) =
        some (p.data_buffer, p.vram 0)) := by
  have hnonpal : ∀ q : PPU, q.vram_addr < 0x3F00 →
      q.cpu_read 0x2007 = some (q.data_buffer,
        { q with data_buffer := q.read_vram q.vram_addr,
                 vram_addr := q.vram_addr + q.vramStep }) := by
    intro q hq
    have hqs : q.vramStep = 32 ∨ q.vramStep = 1 := by
      unfold PPU.vramStep
      split
      · exact Or.inl rfl
      · exact Or.inr rfl
    have hred : q.cpu_read 0x2007 =
        (if 0x3F00 ≤ q.vram_addr then
           some (q.read_vram q.vram_addr,
                 { q with data_buffer := q.read_vram q.vram_addr })
         else if q.vram_addr + q.vramStep ≤ 0xFFFF then
           some (q.data_buffer,
                 { q with data_buffer := q.read_vram q.vram_addr,
                          vram_addr := q.vram_addr + q.vramStep })
         else none) := rfl
    rw [hred, if_neg (by omega : ¬ 0x3F00 ≤ q.vram_addr),
        if_pos (by rcases hqs with hs | hs <;> omega :
          q.vram_addr + q.vramStep ≤ 0xFFFF)]
  refine ⟨?_, fun hlt => hnonpal p hlt, ?_⟩
  · intro hlo hhi
    constructor
    · have hred : p.cpu_read 0x2007 =
          (if 0x3F00 ≤ p.vram_addr then
             some (p.read_vram p.vram_addr,
                   { p with data_buffer := p.read_vram p.vram_addr })
           else if p.vram_addr + p.vramStep ≤ 0xFFFF then
             some (p.data_buffer,
                   { p with data_buffer := p.read_vram p.vram_addr,
                            vram_addr := p.vram_addr + p.vramStep })
           else none) := rfl
      rw [hred, if_pos hlo]
    · unfold PPU.read_vram
      have hmask : p.vram_addr &&& 0x3FFF = p.vram_addr := by
        rw [(by norm_num : (0x3FFF : Nat) = 2 ^ 14 - 1),
            Nat.and_pow_two_sub_one_eq_mod]
        omega
      rw [hmask,
          if_neg (by omega : ¬ p.vram_addr ≤ 0x1FFF),
          if_neg (by omega : ¬ p.vram_addr ≤ 0x2FFF),
          if_neg (by omega : ¬ p.vram_addr ≤ 0x3EFF)]
  · intro hv
    have hstep : p.vramStep = 32 ∨ p.vramStep = 1 := by
      unfold PPU.vramStep
      split
      · exact Or.inl rfl
      · exact Or.inr rfl
    rw [hnonpal p (by omega)]
    have hq2 := hnonpal
      { p with data_buffer := p.read_vram p.vram_addr,
               vram_addr := p.vram_addr + p.vramStep }
      (by show p.vram_addr + p.vramStep < 0x3F00
          rcases hstep with hs | hs <;> omega)
    rw [Option.some_bind, hq2, Option.map_some']
    show some (p.data_buffer, p.read_vram p.vram_addr) =
      some (p.data_buffer, p.vram 0)
    rw [hv]
    rfl

/-- C1 witness: the amended theorem at the palette fixture, where the
read returns the live palette byte. -/
theorem c1_witness :
    ppuPalette.cpu_read 0x2007 =
      some (ppuPalette.read_vram ppuPalette.vram_addr,
            { ppuPalette with
                data_buffer := ppuPalette.read_vram ppuPalette.vram_addr })
    ∧ ppuPalette.read_vram ppuPalette.vram_addr =
        ppuPalette.palette_ram ((ppuPalette.vram_addr - 0x3F00) &&& 0x1F) :=
  (c1_ppudata_read ppuPalette).1 (by decide) (by decide)

/-- C7: a PPUSTATUS read returns the current status byte, then clears
the VBlank bit (mask `&&& 127`, which keeps sprite-0-hit and
sprite-overflow, conjuncts 2-4) and clears the write toggle, leaving
every other PPU field unchanged (conjunct 1 is a full-state equality);
consequently, after a first PPUADDR write, an interposed PPUSTATUS read
resets the shared toggle so the next PPUADDR write is treated as a first
write (it loads `addr_hi` and leaves `v` untouched). -/
theorem c7_ppustatus_read (p : PPU) :
    p.cpu_read 0x2002 =
      some (p.status,
            { p with status := p.status &&& 127, write_toggle := false })
    ∧ (p.status &&& 127) &&& 128 = 0
    ∧ (p.status &&& 127) &&& 64 = p.status &&& 64
    ∧ (p.status &&& 127) &&& 32 = p.status &&& 32
    ∧ (∀ v v2 : Nat, p.write_toggle = false →
        (((p.cpu_write 0x2006 v).bind
            (fun q => (q.cpu_read 0x2002).map Prod.snd)).bind
              (fun q => q.cpu_write 0x2006 v2)).map
            (fun q => (q.write_toggle, q.addr_hi, q.vram_addr)) =
          some (true, v2, p.vram_addr)) := by
  refine ⟨rfl, ?_, ?_, ?_, ?_⟩
  · rw [Nat.land_assoc, (by decide : (127 : Nat) &&& 128 = 0), Nat.and_zero]
  · rw [Nat.land_assoc, (by decide : (127 : Nat) &&& 64 = 64)]
  · rw [Nat.land_assoc, (by decide : (127 : Nat) &&& 32 = 32)]
  · intro v v2 hw
    have h1 : p.cpu_write 0x2006 v =
        some (if p.write_toggle
              then { p with
                      addr_lo := v
                      vram_addr := (p.addr_hi <<< 8) ||| v
                      write_toggle := false }
              else { p with addr_hi := v, write_toggle := true }) := rfl
    rw [h1, hw]
    rfl

/-- C7 witness: the PPUADDR-PPUSTATUS-PPUADDR sequence on the fresh PPU:
the interposed status read resets the toggle, so the second PPUADDR
write loads the high-byte latch and leaves `v` untouched. -/
theorem c7_witness :
    (((PPU.new.cpu_write 0x2006 0x12).bind
        (fun q => (q.cpu_read 0x2002).map Prod.snd)).bind
          (fun q => q.cpu_write 0x2006 0x34)).map
        (fun q => (q.write_toggle, q.addr_hi, q.vram_addr)) =
      some (true, 0x34, PPU.new.vram_addr) :=
  (c7_ppustatus_read PPU.new).2.2.2.2 0x12 0x34 rfl

/-- C6: ADC computes `A + M + C` in 16 bits, stores the low byte in the
accumulator, sets carry iff the sum exceeds `0xFF`, sets overflow iff
`(~(A^M) & (A^result) & 0x80) != 0` (with `~` the 8-bit complement,
`^^^ 255`), and sets Z/N from the low byte; in particular
`0x50 + 0x50` with carry clear yields `0xA0` with V and N set and C and
Z clear. -/
theorem c6_adc_flags :
    (∀ (m : Machine) (a : Nat),
      (m.adc (Address.absolute a)).map
          (fun m2 => (m2.accumulator,
                      m2.status.testBit 0, m2.status.testBit 6,
                      m2.status.testBit 1, m2.status.testBit 7)) =
        some
          ((m.accumulator + m.ram a +
              (if m.status &&& 1 ≠ 0 then 1 else 0)) % 256,
           decide (255 < m.accumulator + m.ram a +
              (if m.status &&& 1 ≠ 0 then 1 else 0)),
           decide (((m.accumulator ^^^ m.ram a) ^^^ 255) &&&
              (m.accumulator ^^^
                (m.accumulator + m.ram a +
                  (if m.status &&& 1 ≠ 0 then 1 else 0)) % 256) &&& 128 ≠ 0),
           decide ((m.accumulator + m.ram a +
              (if m.status &&& 1 ≠ 0 then 1 else 0)) % 256 = 0),
           decide ((m.accumulator + m.ram a +
              (if m.status &&& 1 ≠ 0 then 1 else 0)) % 256 &&& 128 ≠ 0)))
    ∧ (m50.adc (Address.absolute 0)).map
          (fun m2 => (m2.accumulator,
                      m2.status.testBit 6, m2.status.testBit 7,
                      m2.status.testBit 0, m2.status.testBit 1)) =
        some (0xA0, true, true, false, false) := by
  constructor
  · intro m a
    simp only [Machine.adc, Option.map_some', Option.some.injEq,
               Prod.mk.injEq, Machine.set_zero_or_neg_flags, Machine.setFlagM]
    refine ⟨trivial, ?_, ?_, ?_, ?_⟩
    · rw [testBit_setFlag_ne _ 128 0 _ (by decide) (by decide),
          testBit_setFlag_ne _ 2 0 _ (by decide) (by decide),
          testBit_setFlag_ne _ 64 0 _ (by decide) (by decide),
          testBit_setFlag_self _ 1 0 _ (by decide) (by decide)]
    · rw [testBit_setFlag_ne _ 128 6 _ (by decide) (by decide),
          testBit_setFlag_ne _ 2 6 _ (by decide) (by decide),
          testBit_setFlag_self _ 64 6 _ (by decide) (by decide)]
      simp [Nat.pos_iff_ne_zero]
    · rw [testBit_setFlag_ne _ 128 1 _ (by decide) (by decide),
          testBit_setFlag_self _ 2 1 _ (by decide) (by decide)]
    · rw [testBit_setFlag_self _ 128 7 _ (by decide) (by decide)]
  · decide

/-- C9: bit 5 of the status register (the unused X flag) reads as 1 in
every CPU state reachable from the initial state by executing
instructions, for any opcode table built from the dispatchable
operations: it is `1` in `CPU::new` (status `0x24`) and preserved by
every handler, including PLP/RTI which restore the callers X bit; hence
the byte PHP pushes, `P | 0x10`, always has bits 4 and 5 set. -/
theorem c9_x_flag_invariant (table : Nat → OpEntry) (pc : Nat)
    (ram0 : Nat → Nat) (n : Nat) (m : Machine)
    (h : Machine.stepN table n (Machine.new pc ram0) = some m) :
    m.status.testBit 5 = true
    ∧ (m.status ||| 16).testBit 4 = true
    ∧ (m.status ||| 16).testBit 5 = true := by
  have h5 : m.status.testBit 5 = true := by
    rw [Machine.stepN_bit5 h]
    show Nat.testBit 0x24 5 = true
    decide
  refine ⟨h5, ?_, ?_⟩
  · rw [Nat.testBit_lor, (by decide : Nat.testBit 16 4 = true), Bool.or_true]
  · rw [Nat.testBit_lor, h5, Bool.true_or]

/-- C9 witness: the invariant at the initial machine itself (the empty
execution). -/
theorem c9_witness :
    (Machine.new 0 (fun _ => 0)).status.testBit 5 = true
    ∧ ((Machine.new 0 (fun _ => 0)).status ||| 16).testBit 4 = true
    ∧ ((Machine.new 0 (fun _ => 0)).status ||| 16).testBit 5 = true :=
  c9_x_flag_invariant OPCODE_TABLE 0 (fun _ => 0) 0
    (Machine.new 0 (fun _ => 0)) rfl

/-- C3 counterexample: with the program counter at `$2007` (inside the
PPU register window) `trace` is not pure: its two bus reads of the
opcode byte each go through `PPU::cpu_read`, advancing the PPUDATA
read-buffer address, so the PPU VRAM address is 2 afterwards instead of
the 0 it held before. -/
theorem c3_counterexample :
    (cpuAtPpuData.trace (NesBus.new cart0)).map
        (fun r => (r.2).ppu.vram_addr) = some 2
    ∧ (NesBus.new cart0).ppu.vram_addr = 0
    ∧ (2 : Nat) ≠ 0 :=
  ⟨rfl, rfl, by decide⟩

/-- Every opcode-table entry has length between 1 and 3 bytes. -/
theorem OPCODE_TABLE_len (n : Nat) :
    1 ≤ (OPCODE_TABLE n).len ∧ (OPCODE_TABLE n).len ≤ 3 := by
  unfold OPCODE_TABLE
  split <;> exact ⟨by decide, by decide⟩

/-- A run of consecutive reads entirely inside low RAM neither fails nor
changes the bus. -/
theorem readRange_low (b : NesBus) (s n : Nat) (h : s + n ≤ 0x2000) :
    ∃ l, NesBus.readRange b s n = some (l, b) := by
  induction n generalizing s b with
  | zero => exact ⟨[], rfl⟩
  | succ k ih =>
    have hr : b.read s = some (b.cpu_vram (s &&& 0x7FF), b) := by
      unfold NesBus.read
      rw [if_pos (by omega : s ≤ 0x1FFF)]
    rcases ih b (s + 1) (by omega) with ⟨l, hl⟩
    refine ⟨b.cpu_vram (s &&& 0x7FF) :: l, ?_⟩
    rw [NesBus.readRange, hr, Option.some_bind, hl, Option.map_some']

/-- C3 amended: `trace` cannot touch the CPU registers (it takes the
register file by value and only returns rendered data), and it leaves
the whole bus - RAM and every PPU field - unchanged whenever the bytes
it renders lie outside the PPU register window (here: the instruction
fits below `$2000`); when they fall in `$2000-$3FFF` the reads are
side-effecting PPU register accesses and may mutate the PPU (see the
counterexample). -/
theorem c3_trace_pure (c : CPU) (b : NesBus)
    (h : c.program_counter + 3 ≤ 0x2000)
    (h2 : c.total_cycles + 7 ≤ 0xFFFFFFFFFFFFFFFF) :
    ∃ t, c.trace b = some (t, b) := by
  unfold CPU.trace
  have hr : b.read c.program_counter =
      some (b.cpu_vram (c.program_counter &&& 0x7FF), b) := by
    unfold NesBus.read
    rw [if_pos (by omega : c.program_counter ≤ 0x1FFF)]
  rw [hr, Option.some_bind]
  have hlen := OPCODE_TABLE_len (b.cpu_vram (c.program_counter &&& 0x7FF))
  rw [if_neg (by omega : ¬ 0xFFFF <
        c.program_counter +
          (OPCODE_TABLE (b.cpu_vram (c.program_counter &&& 0x7FF))).len),
      if_neg (by omega : ¬ 0xFFFFFFFFFFFFFFFF < c.total_cycles + 7)]
  rcases readRange_low b c.program_counter
      (OPCODE_TABLE (b.cpu_vram (c.program_counter &&& 0x7FF))).len
      (by omega) with ⟨l, hl⟩
  rw [hl, Option.map_some']
  exact ⟨_, rfl⟩

/-- C3 witness: the amended purity theorem for a CPU fetching from
address zero on a fresh bus. -/
theorem c3_witness :
    ∃ t, cpuLowPC.trace (NesBus.new cart0) = some (t, NesBus.new cart0) :=
  c3_trace_pure cpuLowPC (NesBus.new cart0) (by decide) (by decide)

end Nessie
